import Mathlib

/-!
Verification of the estoque_operacional (estqop.py) computation pipeline:
the Transfer Need Calculator, the Divergence Detector and the Channel
Aggregator, together with the input-file guard of the batch entry point.

The Python source is shallowly embedded: dataclasses become structures,
`IntEnum` variants become inductive types carrying their integer value,
generator pipelines become list combinators.  Python's `sorted` is a
stable sort, modelled by `List.insertionSort` (which is stable);
`itertools.groupby` (grouping of consecutive equal keys) is modelled by
`pyGroupBy` below.
-/

namespace EstqOp

/-- Embeds the dataclass `_Produto`: one line of produtos.txt. -/
structure Produto where
  codigo : Int
  qtd_estoque : Int
  qtd_min_co : Int
deriving DecidableEq, Repr

/-- Embeds the `IntEnum` `_SituacaoVenda`. -/
inductive SituacaoVenda where
  | confirmada_pgto_ok
  | confirmada_pgto_pendente
  | cancelada
  | nao_finalizada
  | erro_nao_identificado
deriving DecidableEq, Repr

/-- Integer codes of the `_SituacaoVenda` variants (100, 102, 135, 190, 999). -/
def SituacaoVenda.value : SituacaoVenda → Int
  | .confirmada_pgto_ok => 100
  | .confirmada_pgto_pendente => 102
  | .cancelada => 135
  | .nao_finalizada => 190
  | .erro_nao_identificado => 999

/-- Embeds `_SituacaoVenda.is_confirmada`: true only for the two confirmed variants. -/
def SituacaoVenda.is_confirmada : SituacaoVenda → Bool
  | .confirmada_pgto_ok => true
  | .confirmada_pgto_pendente => true
  | _ => false

/-- Embeds `_SituacaoVenda.msg_erro`. -/
def SituacaoVenda.msg_erro : SituacaoVenda → String
  | .cancelada => "Venda cancelada"
  | .nao_finalizada => "Venda não finalizada"
  | .erro_nao_identificado => "Erro desconhecido. Acionar equipe de TI."
  | _ => "N/A"

/-- Embeds the `IntEnum` `_CanalVenda`. -/
inductive CanalVenda where
  | repr_comercial
  | website
  | app_android
  | app_ios
deriving DecidableEq, Repr

/-- Integer codes of the `_CanalVenda` variants (1, 2, 3, 4). -/
def CanalVenda.value : CanalVenda → Int
  | .repr_comercial => 1
  | .website => 2
  | .app_android => 3
  | .app_ios => 4

/-- Embeds `_CanalVenda.descricao`. -/
def CanalVenda.descricao : CanalVenda → String
  | .repr_comercial => "Representantes"
  | .website => "Website"
  | .app_android => "App móvel Android"
  | .app_ios => "App móvel iPhone"

/-- Embeds the dataclass `_Venda`: one line of vendas.txt. -/
structure Venda where
  cod_produto : Int
  qtd : Int
  situacao : SituacaoVenda
  canal : CanalVenda
deriving DecidableEq, Repr

/-- Embeds the dataclass `_VendasPorProduto`: a product entry (with its
positional index) together with a list of sales attached to it. -/
structure VendasPorProduto where
  index : Nat
  produto : Produto
  vendas : List Venda
deriving DecidableEq, Repr

/-- Embeds the output dataclass `_NecessidadeTransferencia`. -/
structure NecessidadeTransferencia where
  cod_produto : Int
  qtd_produto_co : Int
  qtd_min_produto_co : Int
  qtd_vendas : Int
  qtd_estoque_pos_vendas : Int
  qtd_necessidade : Int
  qtd_transf_arm_co : Int
deriving DecidableEq, Repr

/-- The class constant `_NecessidadeTransferencia.__NE_LO`. -/
def NE_LO : Int := 1

/-- The class constant `_NecessidadeTransferencia.__NE_HI`. -/
def NE_HI : Int := 10

/-- The class constant `_NecessidadeTransferencia.__NE_ESP`. -/
def NE_ESP : Int := 10

/-- Embeds Python's `enumerate` over a list, starting at `n`. -/
def enumerate (n : Nat) : List α → List (Nat × α)
  | [] => []
  | a :: as => (n, a) :: enumerate (n + 1) as

/-- Embeds `itertools.groupby`: groups consecutive elements with equal
`key` value, returning the key together with the group, in order. -/
def pyGroupBy [DecidableEq β] (key : α → β) : List α → List (β × List α)
  | [] => []
  | a :: as =>
    match pyGroupBy key as with
    | [] => [(key a, [a])]
    | (k, g) :: rest =>
      if key a = k then (k, a :: g) :: rest else (key a, [a]) :: (k, g) :: rest

/-- The comprehension feeding `vendas_produtos_raw` in
`_NecessidadeTransferencia.multigerar`, restricted to one sale `v`:
one `_VendasPorProduto` per `(i, p)` in `enumerate(produtos)` whose code
matches the sale, provided the sale is confirmed. -/
def joinVenda (produtos : List Produto) (v : Venda) : List VendasPorProduto :=
  (enumerate 0 produtos).filterMap fun ip =>
    if v.cod_produto = ip.2.codigo ∧ v.situacao.is_confirmada = true then
      some ⟨ip.1, ip.2, [v]⟩
    else none

/-- Embeds the local `vendas_produtos_raw` of
`_NecessidadeTransferencia.multigerar`: the generator runs over the sales
(outer loop) and the enumerated products (inner loop), and the result is
stably sorted by the matched product code. -/
def vendas_produtos_raw (produtos : List Produto) (vendas : List Venda) :
    List VendasPorProduto :=
  (vendas.flatMap (joinVenda produtos)).insertionSort
    fun a b => a.produto.codigo ≤ b.produto.codigo

/-- The `groupby` key used in `_NecessidadeTransferencia.multigerar`: the
record with the sales field emptied, so equality is equality of the
index and the product. -/
def chaveGrupo (vp : VendasPorProduto) : VendasPorProduto :=
  ⟨vp.index, vp.produto, []⟩

/-- Embeds the local `vendas_produtos_agrupados`: consecutive raw entries
with the same index and product are merged, concatenating their sales. -/
def vendas_produtos_agrupados (produtos : List Produto) (vendas : List Venda) :
    List VendasPorProduto :=
  (pyGroupBy chaveGrupo (vendas_produtos_raw produtos vendas)).map fun kg =>
    ⟨kg.1.index, kg.1.produto, kg.2.flatMap (·.vendas)⟩

/-- Embeds the local `vendas_produtos_ordem_original`: the grouped entries
stably sorted back by original product index. -/
def vendas_produtos_ordem_original (produtos : List Produto) (vendas : List Venda) :
    List VendasPorProduto :=
  (vendas_produtos_agrupados produtos vendas).insertionSort fun a b => a.index ≤ b.index

/-- The record construction in the final generator of
`_NecessidadeTransferencia.multigerar`: sold quantity, stock after sales,
raw need (with the defensive absolute value of the source) and the
batch-smoothed transfer quantity. -/
def NecessidadeTransferencia.ofVendasPorProduto (vp : VendasPorProduto) :
    NecessidadeTransferencia :=
  let qtd_vendas := (vp.vendas.map (·.qtd)).sum
  let est_pos_venda := vp.produto.qtd_estoque - qtd_vendas
  let ne := |max (vp.produto.qtd_min_co - est_pos_venda) 0|
  { cod_produto := vp.produto.codigo
    qtd_produto_co := vp.produto.qtd_estoque
    qtd_min_produto_co := vp.produto.qtd_min_co
    qtd_vendas := qtd_vendas
    qtd_estoque_pos_vendas := est_pos_venda
    qtd_necessidade := ne
    qtd_transf_arm_co := if NE_LO < ne ∧ ne < NE_HI then NE_ESP else ne }

/-- Embeds `_NecessidadeTransferencia.multigerar`. -/
def NecessidadeTransferencia.multigerar (produtos : List Produto) (vendas : List Venda) :
    List NecessidadeTransferencia :=
  (vendas_produtos_ordem_original produtos vendas).map
    NecessidadeTransferencia.ofVendasPorProduto

/-- Embeds the output dataclass `_Divergencia`. -/
structure Divergencia where
  num_linha_venda : Nat
  msg_err : String
deriving DecidableEq, Repr

/-- The class constant `_Divergencia.__MSG_SEM_COD`. -/
def MSG_SEM_COD : String := "Código de Produto não encontrado"

/-- Left-pads a string with the character `0` to width `w`,
as Python's format specifier does for the digit part. -/
def zeroPad (w : Nat) (s : String) : String :=
  if s.length < w then String.mk (List.replicate (w - s.length) '0') ++ s else s

/-- Embeds the Python format `f-string` piece for an integer, five wide and
zero padded, where a minus sign counts toward the width. -/
def int05 (n : Int) : String :=
  if n < 0 then "-" ++ zeroPad 4 (toString n.natAbs) else zeroPad 5 (toString n.natAbs)

/-- Embeds `_Divergencia.multigerar`: one record per enumerated sale whose
product code matches no product or whose status is not confirmed; the
unmatched-product message takes precedence, as in the source where
`s_produto` is tested first. -/
def Divergencia.multigerar (produtos : List Produto) (vendas : List Venda) :
    List Divergencia :=
  (enumerate 0 vendas).filterMap fun iv =>
    let s_produto := !produtos.any fun p => p.codigo == iv.2.cod_produto
    if s_produto || !iv.2.situacao.is_confirmada then
      some ⟨iv.1 + 1,
        if s_produto then MSG_SEM_COD ++ " " ++ int05 iv.2.cod_produto
        else iv.2.situacao.msg_erro⟩
    else none

/-- Embeds the output dataclass `_QtdVendasPorCanal`. -/
structure QtdVendasPorCanal where
  canal : CanalVenda
  qtd_vendas : Int
deriving DecidableEq, Repr

/-- Embeds `_QtdVendasPorCanal.multigerar`: confirmed sales, stably sorted
by channel, grouped by channel with quantities summed, and the resulting
records sorted by channel again. -/
def QtdVendasPorCanal.multigerar (vendas : List Venda) : List QtdVendasPorCanal :=
  (((pyGroupBy (fun v => v.canal)
      ((vendas.filter fun v => v.situacao.is_confirmada).insertionSort
        fun a b => a.canal.value ≤ b.canal.value)).map
    fun kg => QtdVendasPorCanal.mk kg.1 ((kg.2.map (·.qtd)).sum)).insertionSort
    fun a b => a.canal.value ≤ b.canal.value)

/-- Embeds the dataclass `_Resultado`. -/
structure Resultado where
  necessidades : List NecessidadeTransferencia
  divergencias : List Divergencia
  vendas_por_canal : List QtdVendasPorCanal
deriving DecidableEq, Repr

/-- The message constant `_MSG_ARQUIVO_NAO_ENCONTRADO`. -/
def MSG_ARQUIVO_NAO_ENCONTRADO : String := "Arquivo de teste não encontrado"

/-- Abstraction of the process file-system state seen by `_main`: the two
input files (already parsed when present, `none` when absent), the three
output files, and the lines printed to stderr.  Parsing and fixed-column
rendering are collaborators, so file contents are carried as the record
sequences they encode. -/
structure SistemaArquivos where
  arquivo_produtos : Option (List Produto)
  arquivo_vendas : Option (List Venda)
  arquivo_transferencias : Option (List NecessidadeTransferencia)
  arquivo_divergencias : Option (List Divergencia)
  arquivo_totcanais : Option (List QtdVendasPorCanal)
  erros : List String
deriving DecidableEq, Repr

/-- Embeds `_garantir_arquivos_entrada`, which succeeds exactly when both
input files exist. -/
def garantir_arquivos_entrada (fs : SistemaArquivos) : Bool :=
  fs.arquivo_produtos.isSome && fs.arquivo_vendas.isSome

/-- The stderr lines printed by `_garantir_arquivos_entrada`: one
not-found message per missing input file, products first. -/
def mensagens_arquivos_faltantes (fs : SistemaArquivos) : List String :=
  (if fs.arquivo_produtos.isSome then [] else
    [MSG_ARQUIVO_NAO_ENCONTRADO ++ ": produtos.txt"]) ++
  (if fs.arquivo_vendas.isSome then [] else
    [MSG_ARQUIVO_NAO_ENCONTRADO ++ ": vendas.txt"])

/-- Embeds `_gerar_resultado`: `none` when the input-file guard fails,
otherwise the three computed result sequences. -/
def gerar_resultado (fs : SistemaArquivos) : Option Resultado :=
  if garantir_arquivos_entrada fs then
    match fs.arquivo_produtos, fs.arquivo_vendas with
    | some produtos, some vendas =>
      some ⟨NecessidadeTransferencia.multigerar produtos vendas,
            Divergencia.multigerar produtos vendas,
            QtdVendasPorCanal.multigerar vendas⟩
    | _, _ => none
  else none

/-- Embeds `_main` as a state transformer: the guard's stderr lines are
appended, and the three output files are written only when
`_gerar_resultado` produced a result. -/
def main (fs : SistemaArquivos) : SistemaArquivos :=
  let fs' := { fs with erros := fs.erros ++ mensagens_arquivos_faltantes fs }
  match gerar_resultado fs with
  | none => fs'
  | some r =>
    { fs' with
      arquivo_transferencias := some r.necessidades
      arquivo_divergencias := some r.divergencias
      arquivo_totcanais := some r.vendas_por_canal }

/-! ### Lemmas about `enumerate` -/

theorem mem_enumerate {l : List α} :
    ∀ {n : Nat} {j : Nat} {a : α}, (j, a) ∈ enumerate n l ↔ ∃ k, j = n + k ∧ l[k]? = some a := by
  induction l with
  | nil => intro n j a; simp [enumerate]
  | cons b bs ih =>
    intro n j a
    simp only [enumerate, List.mem_cons, Prod.mk.injEq, ih]
    constructor
    · rintro (⟨rfl, rfl⟩ | ⟨k, rfl, hk⟩)
      · exact ⟨0, by simp⟩
      · exact ⟨k + 1, by omega, by simpa using hk⟩
    · rintro ⟨k, rfl, hk⟩
      cases k with
      | zero => left; simp_all
      | succ k => right; exact ⟨k, by omega, by simpa using hk⟩

theorem mem_enumerate_zero {l : List α} {j : Nat} {a : α} :
    (j, a) ∈ enumerate 0 l ↔ l[j]? = some a := by
  simp [mem_enumerate]

theorem le_of_mem_enumerate {l : List α} :
    ∀ {n : Nat} {x : Nat × α}, x ∈ enumerate n l → n ≤ x.1 := by
  induction l with
  | nil => intro n x h; simp [enumerate] at h
  | cons b bs ih =>
    intro n x h
    rcases List.mem_cons.1 h with rfl | h
    · exact Nat.le_refl n
    · exact Nat.le_of_succ_le (ih h)

theorem pairwise_enumerate (l : List α) :
    ∀ n, List.Pairwise (fun x y => x.1 < y.1) (enumerate n l) := by
  induction l with
  | nil => intro n; simp [enumerate]
  | cons b bs ih =>
    intro n
    refine List.pairwise_cons.2 ⟨fun y hy => ?_, ih (n + 1)⟩
    exact Nat.lt_of_lt_of_le (Nat.lt_succ_self n) (le_of_mem_enumerate hy)

theorem enumerate_fst_inj {l : List α} {n i : Nat} {a b : α}
    (ha : (i, a) ∈ enumerate n l) (hb : (i, b) ∈ enumerate n l) : a = b := by
  rcases mem_enumerate.1 ha with ⟨k, hk, hka⟩
  rcases mem_enumerate.1 hb with ⟨k', hk', hkb⟩
  have : k = k' := by omega
  subst this
  rw [hka] at hkb
  exact Option.some.inj hkb

/-! ### Lemmas about `pyGroupBy` -/

section PyGroupBy

variable {β : Type} [DecidableEq β] {key : α → β}

theorem pyGroupBy_ne_nil {a : α} {as : List α} : pyGroupBy key (a :: as) ≠ [] := by
  unfold pyGroupBy
  cases pyGroupBy key as with
  | nil => simp
  | cons kg rest =>
    obtain ⟨k, g⟩ := kg
    by_cases h : key a = k <;> simp [h]

theorem pyGroupBy_head_key {a : α} {as : List α} {k : β} {g : List α}
    {rest : List (β × List α)} (h : pyGroupBy key (a :: as) = (k, g) :: rest) :
    k = key a := by
  unfold pyGroupBy at h
  cases hh : pyGroupBy key as with
  | nil =>
    rw [hh] at h
    injection h with h1 h2
    injection h1 with h3 h4
    exact h3.symm
  | cons kg rest' =>
    obtain ⟨k', g'⟩ := kg
    rw [hh] at h
    dsimp only at h
    by_cases hk : key a = k'
    · rw [if_pos hk] at h
      injection h with h1 h2
      injection h1 with h3 h4
      exact h3.symm.trans hk.symm
    · rw [if_neg hk] at h
      injection h with h1 h2
      injection h1 with h3 h4
      exact h3.symm

theorem pyGroupBy_exists_mem :
    ∀ {l : List α} {kg : β × List α}, kg ∈ pyGroupBy key l →
      ∃ x ∈ l, key x = kg.1 ∧ x ∈ kg.2 := by
  intro l
  induction l with
  | nil => intro kg h; simp [pyGroupBy] at h
  | cons a as ih =>
    intro kg h
    unfold pyGroupBy at h
    cases hh : pyGroupBy key as with
    | nil =>
      rw [hh] at h
      simp at h
      subst h
      exact ⟨a, List.mem_cons_self a as, rfl, List.mem_singleton.2 rfl⟩
    | cons kg' rest =>
      obtain ⟨k, g⟩ := kg'
      rw [hh] at h
      by_cases hk : key a = k
      · simp only [if_pos hk] at h
        rcases List.mem_cons.1 h with rfl | h
        · exact ⟨a, List.mem_cons_self a as, hk, List.mem_cons_self a g⟩
        · obtain ⟨x, hx, hkey, hmem⟩ := ih (hh ▸ List.mem_cons_of_mem _ h)
          exact ⟨x, List.mem_cons_of_mem a hx, hkey, hmem⟩
      · simp only [if_neg hk] at h
        rcases List.mem_cons.1 h with rfl | h
        · exact ⟨a, List.mem_cons_self a as, rfl, List.mem_singleton.2 rfl⟩
        · obtain ⟨x, hx, hkey, hmem⟩ := ih (hh ▸ h)
          exact ⟨x, List.mem_cons_of_mem a hx, hkey, hmem⟩

theorem pyGroupBy_mem_exists :
    ∀ {l : List α} {x : α}, x ∈ l →
      ∃ kg ∈ pyGroupBy key l, kg.1 = key x ∧ x ∈ kg.2 := by
  intro l
  induction l with
  | nil => intro x h; simp at h
  | cons a as ih =>
    intro x h
    unfold pyGroupBy
    cases hh : pyGroupBy key as with
    | nil =>
      have has : as = [] := by
        cases as with
        | nil => rfl
        | cons b bs => exact absurd hh pyGroupBy_ne_nil
      subst has
      rcases List.mem_cons.1 h with rfl | h
      · exact ⟨(key x, [x]), List.mem_singleton.2 rfl, rfl, List.mem_singleton.2 rfl⟩
      · simp at h
    | cons kg' rest =>
      obtain ⟨k, g⟩ := kg'
      rcases List.mem_cons.1 h with rfl | h
      · by_cases hk : key x = k
        · exact ⟨(k, x :: g), by simp [hk], hk.symm, List.mem_cons_self x g⟩
        · exact ⟨(key x, [x]), by simp [hk], rfl, List.mem_singleton.2 rfl⟩
      · obtain ⟨kg, hkg, hkey, hmem⟩ := ih h
        rw [hh] at hkg
        by_cases hk : key a = k
        · rcases List.mem_cons.1 hkg with rfl | hkg
          · exact ⟨(k, a :: g), by simp [hk], hkey, List.mem_cons_of_mem a hmem⟩
          · exact ⟨kg, by simp [hk, List.mem_cons_of_mem _ hkg], hkey, hmem⟩
        · exact ⟨kg, by
            simp only [if_neg hk]
            exact List.mem_cons_of_mem _ hkg, hkey, hmem⟩

theorem pyGroupBy_cons_merge {a : α} {as : List α} {k : β} {g : List α}
    {rest : List (β × List α)} (hh : pyGroupBy key as = (k, g) :: rest)
    (hak : key a = k) : pyGroupBy key (a :: as) = (k, a :: g) :: rest := by
  unfold pyGroupBy
  rw [hh]
  dsimp only
  rw [if_pos hak]

theorem pyGroupBy_cons_new {a : α} {as : List α} {k : β} {g : List α}
    {rest : List (β × List α)} (hh : pyGroupBy key as = (k, g) :: rest)
    (hak : ¬key a = k) : pyGroupBy key (a :: as) = (key a, [a]) :: (k, g) :: rest := by
  unfold pyGroupBy
  rw [hh]
  dsimp only
  rw [if_neg hak]


/-- On a list sorted by a measure `c` that agrees with `key`-equality on its
elements, `pyGroupBy` behaves like a true group-by: the group keys are
pairwise distinct and each group is exactly the sublist with that key. -/
theorem pyGroupBy_sorted_spec (c : α → Int) :
    ∀ (l : List α), List.Pairwise (fun x y => c x ≤ c y) l →
      (∀ x ∈ l, ∀ y ∈ l, (key x = key y ↔ c x = c y)) →
      ((pyGroupBy key l).map Prod.fst).Nodup ∧
        ∀ kg ∈ pyGroupBy key l, kg.2 = l.filter fun x => decide (key x = kg.1) := by
  intro l
  induction l with
  | nil =>
    intro _ _
    exact ⟨by simp [pyGroupBy], by intro kg h; simp [pyGroupBy] at h⟩
  | cons a as ih =>
    intro hs hkc
    obtain ⟨ha, hs'⟩ := List.pairwise_cons.1 hs
    have hkc' : ∀ x ∈ as, ∀ y ∈ as, (key x = key y ↔ c x = c y) := fun x hx y hy =>
      hkc x (List.mem_cons_of_mem a hx) y (List.mem_cons_of_mem a hy)
    obtain ⟨ihnd, ihflt⟩ := ih hs' hkc'
    cases as with
    | nil =>
      refine ⟨by simp [pyGroupBy], ?_⟩
      intro kg hkg
      simp only [pyGroupBy] at hkg
      rcases List.mem_singleton.1 hkg with rfl
      simp
    | cons b bs =>
      cases hh : pyGroupBy key (b :: bs) with
      | nil => exact absurd hh pyGroupBy_ne_nil
      | cons kg0 rest =>
        obtain ⟨k, g⟩ := kg0
        have hkb : k = key b := pyGroupBy_head_key hh
        by_cases hak : key a = k
        · have hres : pyGroupBy key (a :: b :: bs) = (k, a :: g) :: rest :=
            pyGroupBy_cons_merge hh hak
          rw [hres]
          rw [hh] at ihnd ihflt
          refine ⟨by simpa using ihnd, ?_⟩
          intro kg hkg
          rcases List.mem_cons.1 hkg with rfl | hkg'
          · have hg := ihflt (k, g) (List.mem_cons_self _ _)
            rw [List.filter_cons_of_pos (by simpa using hak)]
            simpa using hg
          · have h1 := ihflt kg (List.mem_cons_of_mem _ hkg')
            have hne : kg.1 ≠ k := by
              intro hkey
              have hk_notin : k ∉ rest.map Prod.fst := (List.nodup_cons.1 (by simpa using ihnd)).1
              exact hk_notin (hkey ▸ List.mem_map_of_mem Prod.fst hkg')
            rw [List.filter_cons_of_neg (by simp [hak]; exact fun hc => hne hc.symm)]
            exact h1
        · have hzero : ∀ y ∈ b :: bs, key y ≠ key a := by
            intro y hy hkey
            have hya : c y = c a :=
              (hkc y (List.mem_cons_of_mem a hy) a (List.mem_cons_self a _)).1 hkey
            have hab : c a ≤ c b := ha b (List.mem_cons_self b bs)
            have hby : c b ≤ c y := by
              rcases List.mem_cons.1 hy with rfl | hy'
              · exact le_refl _
              · exact (List.pairwise_cons.1 hs').1 y hy'
            have hcb : c b = c a := le_antisymm (by omega) hab
            have hba : key b = key a :=
              (hkc b (List.mem_cons_of_mem a (List.mem_cons_self b bs))
                a (List.mem_cons_self a _)).2 hcb
            exact hak (hkb.trans hba).symm
          have hnotin : ∀ kg ∈ ((k, g) :: rest : List (β × List α)), kg.1 ≠ key a := by
            intro kg hkg hkey
            obtain ⟨y, hy, hykey, _⟩ := pyGroupBy_exists_mem (hh ▸ hkg)
            exact hzero y hy (hykey.trans hkey)
          have hres : pyGroupBy key (a :: b :: bs) = (key a, [a]) :: (k, g) :: rest :=
            pyGroupBy_cons_new hh hak
          rw [hres]
          rw [hh] at ihnd ihflt
          constructor
          · simp only [List.map_cons]
            refine List.nodup_cons.2 ⟨?_, by simpa using ihnd⟩
            intro hmem
            rcases List.mem_map.1 (by simpa using hmem : key a ∈ ((k, g) :: rest).map Prod.fst)
              with ⟨kg, hkg, hfst⟩
            exact hnotin kg hkg hfst
          · intro kg hkg
            rcases List.mem_cons.1 hkg with rfl | hkg'
            · rw [List.filter_cons_of_pos (by simp)]
              have hnilf : (b :: bs).filter (fun x => decide (key x = key a)) = [] :=
                List.filter_eq_nil_iff.2 fun y hy => by simpa using hzero y hy
              simp [hnilf]
            · have h1 := ihflt kg hkg'
              rw [List.filter_cons_of_neg (by
                simp only [decide_eq_true_eq]
                exact fun hc => hnotin kg hkg' hc.symm)]
              exact h1

end PyGroupBy

/-! ### Characterization of the raw join -/

theorem mem_joinVenda {produtos : List Produto} {v : Venda} {x : VendasPorProduto} :
    x ∈ joinVenda produtos v ↔
      ∃ i p, x = ⟨i, p, [v]⟩ ∧ produtos[i]? = some p ∧
        v.cod_produto = p.codigo ∧ v.situacao.is_confirmada = true := by
  unfold joinVenda
  rw [List.mem_filterMap]
  constructor
  · rintro ⟨⟨i, p⟩, hmem, hf⟩
    by_cases hc : v.cod_produto = p.codigo ∧ v.situacao.is_confirmada = true
    · rw [if_pos hc] at hf
      exact ⟨i, p, (Option.some.inj hf).symm, mem_enumerate_zero.1 hmem, hc.1, hc.2⟩
    · rw [if_neg hc] at hf
      cases hf
  · rintro ⟨i, p, rfl, hget, hcod, hconf⟩
    exact ⟨(i, p), mem_enumerate_zero.2 hget, by rw [if_pos ⟨hcod, hconf⟩]⟩

theorem mem_vendas_produtos_raw {produtos : List Produto} {vendas : List Venda}
    {x : VendasPorProduto} :
    x ∈ vendas_produtos_raw produtos vendas ↔
      ∃ i p v, x = ⟨i, p, [v]⟩ ∧ produtos[i]? = some p ∧ v ∈ vendas ∧
        v.cod_produto = p.codigo ∧ v.situacao.is_confirmada = true := by
  unfold vendas_produtos_raw
  rw [(List.perm_insertionSort _ _).mem_iff, List.mem_flatMap]
  constructor
  · rintro ⟨v, hv, hx⟩
    obtain ⟨i, p, rfl, hget, hcod, hconf⟩ := mem_joinVenda.1 hx
    exact ⟨i, p, v, rfl, hget, hv, hcod, hconf⟩
  · rintro ⟨i, p, v, rfl, hget, hv, hcod, hconf⟩
    exact ⟨v, hv, mem_joinVenda.2 ⟨i, p, rfl, hget, hcod, hconf⟩⟩

/-! ### Sums over a single group -/

theorem enumerate_filter_chave {v : Venda} {i : Nat} {p : Produto} :
    ∀ (l : List Produto) (n : Nat),
      (((enumerate n l).filterMap fun ip =>
          if v.cod_produto = ip.2.codigo ∧ v.situacao.is_confirmada = true then
            some (⟨ip.1, ip.2, [v]⟩ : VendasPorProduto)
          else none).filter fun x => decide (chaveGrupo x = ⟨i, p, []⟩))
        = if (i, p) ∈ enumerate n l ∧ v.cod_produto = p.codigo ∧
              v.situacao.is_confirmada = true then [⟨i, p, [v]⟩] else [] := by
  intro l
  induction l with
  | nil =>
    intro n
    simp [enumerate]
  | cons a as ih =>
    intro n
    simp only [enumerate]
    by_cases hca : v.cod_produto = a.codigo ∧ v.situacao.is_confirmada = true
    · rw [List.filterMap_cons_some (by rw [if_pos hca])]
      by_cases hip : (i, p) = (n, a)
      · obtain ⟨hin, hpa⟩ := Prod.ext_iff.1 hip
        dsimp only at hin hpa
        have htail0 : ¬((i, p) ∈ enumerate (n + 1) as ∧ v.cod_produto = p.codigo ∧
            v.situacao.is_confirmada = true) := by
          rintro ⟨hmem, -⟩
          have hle := le_of_mem_enumerate hmem
          simp only at hle
          omega
        rw [List.filter_cons_of_pos (by simp [chaveGrupo, hin, hpa])]
        rw [ih (n + 1), if_neg htail0]
        rw [if_pos ⟨List.mem_cons.2 (Or.inl hip), by rw [hpa]; exact hca.1, hca.2⟩]
        rw [hin, hpa]
      · rw [List.filter_cons_of_neg (by
          simp only [decide_eq_true_eq, chaveGrupo]
          intro hx
          apply hip
          have h1 : n = i := congrArg VendasPorProduto.index hx
          have h2 : a = p := congrArg VendasPorProduto.produto hx
          exact Prod.ext_iff.2 ⟨h1.symm, h2.symm⟩)]
        rw [ih (n + 1)]
        refine if_congr ?_ rfl rfl
        simp only [List.mem_cons]
        tauto
    · rw [List.filterMap_cons_none (by rw [if_neg hca])]
      rw [ih (n + 1)]
      refine if_congr ?_ rfl rfl
      simp only [List.mem_cons]
      constructor
      · rintro ⟨hmem, hcond⟩
        exact ⟨Or.inr hmem, hcond⟩
      · rintro ⟨hmem | hmem, hcond⟩
        · obtain ⟨hin, hpa⟩ := Prod.ext_iff.1 hmem
          dsimp only at hin hpa
          rw [hpa] at hcond
          exact absurd hcond hca
        · exact ⟨hmem, hcond⟩

theorem joinVenda_filter_chave (produtos : List Produto) (v : Venda) {i : Nat}
    {p : Produto} :
    (joinVenda produtos v).filter (fun x => decide (chaveGrupo x = ⟨i, p, []⟩))
      = if (i, p) ∈ enumerate 0 produtos ∧ v.cod_produto = p.codigo ∧
            v.situacao.is_confirmada = true then [⟨i, p, [v]⟩] else [] :=
  enumerate_filter_chave produtos 0

/-- The quantities collected by the raw join for the group keyed by product
entry `(i, p)` sum to the total quantity of the confirmed sales whose code
matches `p`. -/
theorem sum_filter_chave_flatMap (produtos : List Produto) {i : Nat} {p : Produto}
    (hget : produtos[i]? = some p) :
    ∀ vendas : List Venda,
      ((((vendas.flatMap (joinVenda produtos)).filter
          fun x => decide (chaveGrupo x = ⟨i, p, []⟩)).map
        fun x => (x.vendas.map (·.qtd)).sum).sum)
      = ((vendas.filter fun v =>
            v.situacao.is_confirmada && v.cod_produto == p.codigo).map (·.qtd)).sum := by
  intro vendas
  induction vendas with
  | nil => simp
  | cons v vs ih =>
    rw [List.flatMap_cons, List.filter_append, List.map_append, List.sum_append, ih,
      joinVenda_filter_chave]
    by_cases hc : v.cod_produto = p.codigo ∧ v.situacao.is_confirmada = true
    · rw [if_pos ⟨mem_enumerate_zero.2 hget, hc⟩]
      rw [List.filter_cons_of_pos (by simp [hc.1, hc.2])]
      simp
    · rw [if_neg (fun h => hc h.2)]
      rw [List.filter_cons_of_neg (by
        simp only [Bool.and_eq_true, beq_iff_eq]
        tauto)]
      simp

theorem sum_map_flatMap {γ : Type} {f : α → List γ} {h : γ → Int} (l : List α) :
    ((l.flatMap f).map h).sum = (l.map fun x => ((f x).map h).sum).sum := by
  induction l with
  | nil => simp
  | cons a as ih =>
    rw [List.flatMap_cons, List.map_append, List.sum_append, ih, List.map_cons,
      List.sum_cons]

/-! ### The specification-level description of the Transfer Need Calculator -/

/-- Written from the spec's words (§4.1 steps 1–4, assuming distinct codes):
one group per product entry, in original product order, holding exactly the
confirmed sales whose `productCode` equals the entry's code; entries with no
such sale produce no group. -/
def gruposPorProdutoSpec (produtos : List Produto) (vendas : List Venda) :
    List VendasPorProduto :=
  (enumerate 0 produtos).filterMap fun ip =>
    let corresp := vendas.filter fun v =>
      v.situacao.is_confirmada && v.cod_produto == ip.2.codigo
    if corresp.isEmpty then none else some ⟨ip.1, ip.2, corresp⟩

/-- Written from the spec's words (§4.1 steps 5–6): each group becomes one
TransferNeed record via the arithmetic of
`NecessidadeTransferencia.ofVendasPorProduto`. -/
def necessidadeTransferenciaSpec (produtos : List Produto) (vendas : List Venda) :
    List NecessidadeTransferencia :=
  (gruposPorProdutoSpec produtos vendas).map NecessidadeTransferencia.ofVendasPorProduto

theorem mem_gruposPorProdutoSpec {produtos : List Produto} {vendas : List Venda}
    {x : VendasPorProduto} :
    x ∈ gruposPorProdutoSpec produtos vendas ↔
      ∃ i p, produtos[i]? = some p ∧
        x = ⟨i, p, vendas.filter fun v =>
          v.situacao.is_confirmada && v.cod_produto == p.codigo⟩ ∧
        vendas.filter (fun v =>
          v.situacao.is_confirmada && v.cod_produto == p.codigo) ≠ [] := by
  unfold gruposPorProdutoSpec
  rw [List.mem_filterMap]
  constructor
  · rintro ⟨⟨i, p⟩, hmem, hf⟩
    dsimp only at hf
    by_cases he : (vendas.filter fun v =>
        v.situacao.is_confirmada && v.cod_produto == p.codigo).isEmpty
    · rw [if_pos he] at hf
      cases hf
    · rw [if_neg he] at hf
      refine ⟨i, p, mem_enumerate_zero.1 hmem, (Option.some.inj hf).symm, ?_⟩
      intro hnil
      exact he (by rw [hnil]; rfl)
  · rintro ⟨i, p, hget, rfl, hne⟩
    refine ⟨(i, p), mem_enumerate_zero.2 hget, ?_⟩
    dsimp only
    rw [if_neg (by
      intro he
      exact hne (List.isEmpty_iff.1 he))]

theorem pairwise_gruposPorProdutoSpec (produtos : List Produto) (vendas : List Venda) :
    List.Pairwise (fun x y => x.index < y.index)
      (gruposPorProdutoSpec produtos vendas) := by
  unfold gruposPorProdutoSpec
  rw [List.pairwise_filterMap]
  refine (pairwise_enumerate produtos 0).imp ?_
  intro a b hab x hx y hy
  dsimp only at hx hy
  have hxa : x.index = a.1 := by
    by_cases he : (vendas.filter fun v =>
        v.situacao.is_confirmada && v.cod_produto == a.2.codigo).isEmpty
    · rw [if_pos he] at hx
      cases hx
    · rw [if_neg he] at hx
      rw [← Option.some.inj hx]
  have hyb : y.index = b.1 := by
    by_cases he : (vendas.filter fun v =>
        v.situacao.is_confirmada && v.cod_produto == b.2.codigo).isEmpty
    · rw [if_pos he] at hy
      cases hy
    · rw [if_neg he] at hy
      rw [← Option.some.inj hy]
  rw [hxa, hyb]
  exact hab

/-! ### Positions in a list with pairwise-distinct codes -/

theorem nodup_codigo_get {produtos : List Produto}
    (h : (produtos.map Produto.codigo).Nodup) {i j : Nat} {p q : Produto}
    (hi : produtos[i]? = some p) (hj : produtos[j]? = some q)
    (hpq : p.codigo = q.codigo) : i = j ∧ p = q := by
  obtain ⟨hilen, hip⟩ := List.getElem?_eq_some.1 hi
  obtain ⟨hjlen, hjq⟩ := List.getElem?_eq_some.1 hj
  have hilen' : i < (produtos.map Produto.codigo).length := by simpa using hilen
  have hjlen' : j < (produtos.map Produto.codigo).length := by simpa using hjlen
  have hEq : (produtos.map Produto.codigo)[i] = (produtos.map Produto.codigo)[j] := by
    simp [hip, hjq, hpq]
  have hij : i = j := (h.getElem_inj_iff).1 hEq
  subst hij
  rw [hi] at hj
  exact ⟨rfl, Option.some.inj hj⟩

/-! ### Relating the pipeline to the specification-level description -/

instance : IsTotal VendasPorProduto fun a b => a.produto.codigo ≤ b.produto.codigo :=
  ⟨fun _ _ => le_total _ _⟩

instance : IsTrans VendasPorProduto fun a b => a.produto.codigo ≤ b.produto.codigo :=
  ⟨fun _ _ _ => le_trans⟩

instance : IsTotal VendasPorProduto fun a b => a.index ≤ b.index :=
  ⟨fun _ _ => le_total _ _⟩

instance : IsTrans VendasPorProduto fun a b => a.index ≤ b.index :=
  ⟨fun _ _ _ => le_trans⟩

instance : IsAntisymm (Nat × Produto × Int) fun a b => a.1 < b.1 :=
  ⟨fun _ _ h1 h2 => absurd h1 (Nat.lt_asymm h2)⟩

/-- The data of a grouped entry that determines its output record: position,
product and total sold quantity. -/
def resumoVp (vp : VendasPorProduto) : Nat × Produto × Int :=
  (vp.index, vp.produto, (vp.vendas.map (·.qtd)).sum)

/-- Rebuilding the output record from a `resumoVp` triple. -/
def necessidadeDeResumo (t : Nat × Produto × Int) : NecessidadeTransferencia :=
  { cod_produto := t.2.1.codigo
    qtd_produto_co := t.2.1.qtd_estoque
    qtd_min_produto_co := t.2.1.qtd_min_co
    qtd_vendas := t.2.2
    qtd_estoque_pos_vendas := t.2.1.qtd_estoque - t.2.2
    qtd_necessidade := |max (t.2.1.qtd_min_co - (t.2.1.qtd_estoque - t.2.2)) 0|
    qtd_transf_arm_co :=
      if NE_LO < |max (t.2.1.qtd_min_co - (t.2.1.qtd_estoque - t.2.2)) 0| ∧
          |max (t.2.1.qtd_min_co - (t.2.1.qtd_estoque - t.2.2)) 0| < NE_HI then NE_ESP
      else |max (t.2.1.qtd_min_co - (t.2.1.qtd_estoque - t.2.2)) 0| }

theorem ofVendasPorProduto_eq_resumo (vp : VendasPorProduto) :
    NecessidadeTransferencia.ofVendasPorProduto vp = necessidadeDeResumo (resumoVp vp) := rfl

/-- Properties of the grouping stage of the Transfer Need Calculator when
product codes are pairwise distinct: every group key names a real product
entry, every group is the filter of the sorted raw join by its key, and
group keys occupy pairwise-distinct positions. -/
theorem grupos_raw_char (produtos : List Produto) (vendas : List Venda)
    (hnd : (produtos.map Produto.codigo).Nodup) :
    (∀ kg ∈ pyGroupBy chaveGrupo (vendas_produtos_raw produtos vendas),
        produtos[kg.1.index]? = some kg.1.produto ∧ kg.1.vendas = []) ∧
      (∀ kg ∈ pyGroupBy chaveGrupo (vendas_produtos_raw produtos vendas),
        kg.2 = (vendas_produtos_raw produtos vendas).filter
          fun x => decide (chaveGrupo x = kg.1)) ∧
      ((pyGroupBy chaveGrupo (vendas_produtos_raw produtos vendas)).map
        fun kg => kg.1.index).Nodup := by
  have hsorted_raw : List.Pairwise
      (fun a b : VendasPorProduto => a.produto.codigo ≤ b.produto.codigo)
      (vendas_produtos_raw produtos vendas) :=
    List.sorted_insertionSort _ _
  have hinv : ∀ x ∈ vendas_produtos_raw produtos vendas,
      produtos[x.index]? = some x.produto := by
    intro x hx
    obtain ⟨i, p, v, rfl, hget, -, -, -⟩ := mem_vendas_produtos_raw.1 hx
    exact hget
  have hkc : ∀ x ∈ vendas_produtos_raw produtos vendas,
      ∀ y ∈ vendas_produtos_raw produtos vendas,
        (chaveGrupo x = chaveGrupo y ↔ x.produto.codigo = y.produto.codigo) := by
    intro x hx y hy
    constructor
    · intro h
      have hp := congrArg VendasPorProduto.produto h
      exact congrArg Produto.codigo hp
    · intro h
      obtain ⟨hidx, hprod⟩ := nodup_codigo_get hnd (hinv x hx) (hinv y hy) h
      unfold chaveGrupo
      rw [hidx, hprod]
  obtain ⟨hndkeys, hflt⟩ :=
    pyGroupBy_sorted_spec (fun x : VendasPorProduto => x.produto.codigo) _ hsorted_raw hkc
  have hshape : ∀ kg ∈ pyGroupBy chaveGrupo (vendas_produtos_raw produtos vendas),
      produtos[kg.1.index]? = some kg.1.produto ∧ kg.1.vendas = [] := by
    intro kg hkg
    obtain ⟨y, hy, hykey, -⟩ := pyGroupBy_exists_mem hkg
    constructor
    · rw [← hykey]
      exact hinv y hy
    · rw [← hykey]
      rfl
  refine ⟨hshape, hflt, ?_⟩
  have hcomp : ((pyGroupBy chaveGrupo (vendas_produtos_raw produtos vendas)).map
      fun kg => kg.1.index)
      = ((pyGroupBy chaveGrupo (vendas_produtos_raw produtos vendas)).map
          Prod.fst).map (fun k => k.index) := by
    rw [List.map_map]
    rfl
  rw [hcomp]
  apply List.Nodup.map_on ?_ hndkeys
  intro x hx y hy hxy
  rcases List.mem_map.1 hx with ⟨kgx, hkgx, rfl⟩
  rcases List.mem_map.1 hy with ⟨kgy, hkgy, rfl⟩
  obtain ⟨hgx, hnx⟩ := hshape kgx hkgx
  obtain ⟨hgy, hny⟩ := hshape kgy hkgy
  obtain ⟨⟨ix, px, vx⟩, gx⟩ := kgx
  obtain ⟨⟨iy, py, vy⟩, gy⟩ := kgy
  dsimp only at hxy hnx hny hgx hgy ⊢
  rw [hxy] at hgx
  rw [hgx] at hgy
  rw [hxy, hnx, hny, Option.some.inj hgy]

/-- The total quantity attached to the group keyed by the product entry
`(i, p)` equals the total quantity of the confirmed sales matching `p`. -/
theorem grupo_sum (produtos : List Produto) (vendas : List Venda) {i : Nat} {p : Produto}
    (hget : produtos[i]? = some p) {g : List VendasPorProduto}
    (hg : g = (vendas_produtos_raw produtos vendas).filter
      fun x => decide (chaveGrupo x = ⟨i, p, []⟩)) :
    ((g.flatMap (·.vendas)).map (·.qtd)).sum
      = ((vendas.filter fun v =>
          v.situacao.is_confirmada && v.cod_produto == p.codigo).map (·.qtd)).sum := by
  rw [sum_map_flatMap, hg]
  have hperm : ((vendas_produtos_raw produtos vendas).filter
        fun x => decide (chaveGrupo x = ⟨i, p, []⟩)).Perm
      ((vendas.flatMap (joinVenda produtos)).filter
        fun x => decide (chaveGrupo x = ⟨i, p, []⟩)) :=
    (List.perm_insertionSort _ _).filter _
  rw [(hperm.map fun x => (x.vendas.map (·.qtd)).sum).sum_eq]
  exact sum_filter_chave_flatMap produtos hget vendas

/-- With pairwise-distinct product codes, the grouped entries of the
calculator and the specification-level groups carry the same summaries,
up to order. -/
theorem agrupados_perm_spec (produtos : List Produto) (vendas : List Venda)
    (hnd : (produtos.map Produto.codigo).Nodup) :
    ((vendas_produtos_agrupados produtos vendas).map resumoVp).Perm
      ((gruposPorProdutoSpec produtos vendas).map resumoVp) := by
  obtain ⟨hshape, hflt, hndidx⟩ := grupos_raw_char produtos vendas hnd
  apply @List.perm_of_nodup_nodup_toFinset_eq (Nat × Produto × Int) _ _ _
  · unfold vendas_produtos_agrupados
    rw [List.map_map]
    have hpw : List.Pairwise
        (fun kg kg' : VendasPorProduto × List VendasPorProduto =>
          kg.1.index ≠ kg'.1.index)
        (pyGroupBy chaveGrupo (vendas_produtos_raw produtos vendas)) :=
      List.pairwise_map.1 hndidx
    exact List.pairwise_map.2 (hpw.imp fun hab h => hab (congrArg Prod.fst h))
  · have hpw := pairwise_gruposPorProdutoSpec produtos vendas
    exact List.pairwise_map.2 (hpw.imp fun hab h =>
      absurd (congrArg Prod.fst h) (Nat.ne_of_lt hab))
  · apply Finset.ext
    intro t
    simp only [List.mem_toFinset]
    constructor
    · intro ht
      rcases List.mem_map.1 ht with ⟨vp, hvp, rfl⟩
      unfold vendas_produtos_agrupados at hvp
      rcases List.mem_map.1 hvp with ⟨kg, hkg, rfl⟩
      obtain ⟨hget, hkgnil⟩ := hshape kg hkg
      have hkey_eq : kg.1 = ⟨kg.1.index, kg.1.produto, []⟩ := by
        rw [← hkgnil]
      have hgsum := grupo_sum produtos vendas hget (hkey_eq ▸ hflt kg hkg)
      have hex := pyGroupBy_exists_mem hkg
      obtain ⟨y, hy, hykey, -⟩ := hex
      obtain ⟨iy, py, v, hform, hgety, hvmem, hcod, hconf⟩ := mem_vendas_produtos_raw.1 hy
      have hvflt : v ∈ vendas.filter fun w =>
          w.situacao.is_confirmada && w.cod_produto == kg.1.produto.codigo := by
        have hprod : py = kg.1.produto := by
          have := congrArg VendasPorProduto.produto hykey
          rw [hform] at this
          exact this
        rw [List.mem_filter]
        exact ⟨hvmem, by rw [← hprod]; simp [hconf, hcod.symm]⟩
      apply List.mem_map.2
      refine ⟨⟨kg.1.index, kg.1.produto, vendas.filter fun w =>
        w.situacao.is_confirmada && w.cod_produto == kg.1.produto.codigo⟩, ?_, ?_⟩
      · exact mem_gruposPorProdutoSpec.2
          ⟨kg.1.index, kg.1.produto, hget, rfl, List.ne_nil_of_mem hvflt⟩
      · unfold resumoVp
        dsimp only
        rw [← hgsum]
    · intro ht
      rcases List.mem_map.1 ht with ⟨vp, hvp, rfl⟩
      obtain ⟨i, p, hget, hform, hne⟩ := mem_gruposPorProdutoSpec.1 hvp
      obtain ⟨v, hv⟩ := List.exists_mem_of_ne_nil _ hne
      obtain ⟨hvmem, hvpred⟩ := List.mem_filter.1 hv
      have hconf : v.situacao.is_confirmada = true := by
        have := hvpred
        simp only [Bool.and_eq_true] at this
        exact this.1
      have hcod : v.cod_produto = p.codigo := by
        have := hvpred
        simp only [Bool.and_eq_true, beq_iff_eq] at this
        exact this.2
      have hy : (⟨i, p, [v]⟩ : VendasPorProduto) ∈ vendas_produtos_raw produtos vendas :=
        mem_vendas_produtos_raw.2 ⟨i, p, v, rfl, hget, hvmem, hcod, hconf⟩
      obtain ⟨kg, hkg, hkey, -⟩ := @pyGroupBy_mem_exists VendasPorProduto VendasPorProduto _ chaveGrupo _ _ hy
      have hkey' : kg.1 = ⟨i, p, []⟩ := hkey
      have hgsum := grupo_sum produtos vendas hget (hkey' ▸ hflt kg hkg)
      apply List.mem_map.2
      refine ⟨⟨kg.1.index, kg.1.produto, kg.2.flatMap (·.vendas)⟩, ?_, ?_⟩
      · unfold vendas_produtos_agrupados
        exact List.mem_map.2 ⟨kg, hkg, rfl⟩
      · unfold resumoVp
        dsimp only
        rw [hform]
        dsimp only
        rw [hkey']
        dsimp only
        rw [hgsum]

/-- With pairwise-distinct product codes the Transfer Need Calculator output
coincides with the specification-level description: one record per product
entry with at least one matching confirmed sale, in original product order,
with `qtd_vendas` the total quantity of those sales. -/
theorem multigerar_eq_spec (produtos : List Produto) (vendas : List Venda)
    (hnd : (produtos.map Produto.codigo).Nodup) :
    NecessidadeTransferencia.multigerar produtos vendas
      = necessidadeTransferenciaSpec produtos vendas := by
  obtain ⟨-, -, hndidx⟩ := grupos_raw_char produtos vendas hnd
  have hperm_ord : (vendas_produtos_ordem_original produtos vendas).Perm
      (vendas_produtos_agrupados produtos vendas) := List.perm_insertionSort _ _
  have hsorted_ord : List.Pairwise (fun a b : VendasPorProduto => a.index ≤ b.index)
      (vendas_produtos_ordem_original produtos vendas) := List.sorted_insertionSort _ _
  have hnd_agr : ((vendas_produtos_agrupados produtos vendas).map
      fun vp => vp.index).Nodup := by
    unfold vendas_produtos_agrupados
    rw [List.map_map]
    exact hndidx
  have hnd_ord : ((vendas_produtos_ordem_original produtos vendas).map
      fun vp => vp.index).Nodup :=
    ((hperm_ord.map fun vp => vp.index).nodup_iff).2 hnd_agr
  have hlt_ord : List.Pairwise (fun a b : VendasPorProduto => a.index < b.index)
      (vendas_produtos_ordem_original produtos vendas) := by
    have hne := List.pairwise_map.1 hnd_ord
    exact (hsorted_ord.and hne).imp fun hab => lt_of_le_of_ne hab.1 hab.2
  have h1 : ((vendas_produtos_ordem_original produtos vendas).map resumoVp).Perm
      ((gruposPorProdutoSpec produtos vendas).map resumoVp) :=
    (hperm_ord.map resumoVp).trans (agrupados_perm_spec produtos vendas hnd)
  have hs1 : List.Pairwise (fun a b : Nat × Produto × Int => a.1 < b.1)
      ((vendas_produtos_ordem_original produtos vendas).map resumoVp) :=
    List.pairwise_map.2 (hlt_ord.imp fun hab => hab)
  have hs2 : List.Pairwise (fun a b : Nat × Produto × Int => a.1 < b.1)
      ((gruposPorProdutoSpec produtos vendas).map resumoVp) :=
    List.pairwise_map.2 ((pairwise_gruposPorProdutoSpec produtos vendas).imp fun hab => hab)
  have heq : (vendas_produtos_ordem_original produtos vendas).map resumoVp
      = (gruposPorProdutoSpec produtos vendas).map resumoVp :=
    List.eq_of_perm_of_sorted h1 hs1 hs2
  unfold NecessidadeTransferencia.multigerar necessidadeTransferenciaSpec
  have hmap : ∀ L : List VendasPorProduto,
      L.map NecessidadeTransferencia.ofVendasPorProduto
        = (L.map resumoVp).map necessidadeDeResumo := by
    intro L
    rw [List.map_map]
    exact List.map_congr_left fun vp _ => ofVendasPorProduto_eq_resumo vp
  rw [hmap, hmap, heq]

/-! ### Conservation of quantities -/

theorem sum_spec_aux (vendas : List Venda) :
    ∀ (l : List Produto) (n : Nat),
      ((((enumerate n l).filterMap fun ip =>
          let corresp := vendas.filter fun v =>
            v.situacao.is_confirmada && v.cod_produto == ip.2.codigo
          if corresp.isEmpty then none else
            some (⟨ip.1, ip.2, corresp⟩ : VendasPorProduto)).map
        fun vp => (vp.vendas.map (·.qtd)).sum).sum)
      = (l.map fun p => ((vendas.filter fun v =>
          v.situacao.is_confirmada && v.cod_produto == p.codigo).map (·.qtd)).sum).sum := by
  intro l
  induction l with
  | nil =>
    intro n
    simp [enumerate]
  | cons a as ih =>
    intro n
    simp only [enumerate]
    by_cases he : (vendas.filter fun v =>
        v.situacao.is_confirmada && v.cod_produto == a.codigo).isEmpty
    · rw [List.filterMap_cons_none (by dsimp only; rw [if_pos he])]
      rw [ih (n + 1), List.map_cons, List.sum_cons, List.isEmpty_iff.1 he]
      simp
    · rw [List.filterMap_cons_some (by dsimp only; rw [if_neg he])]
      rw [List.map_cons, List.sum_cons, ih (n + 1), List.map_cons, List.sum_cons]

theorem sum_filter_or {q1 q2 : Venda → Bool}
    (hdisj : ∀ v, ¬(q1 v = true ∧ q2 v = true)) :
    ∀ vendas : List Venda,
      ((vendas.filter fun v => q1 v || q2 v).map (·.qtd)).sum
        = ((vendas.filter q1).map (·.qtd)).sum + ((vendas.filter q2).map (·.qtd)).sum := by
  intro vendas
  induction vendas with
  | nil => simp
  | cons v vs ih =>
    simp only [List.filter_cons]
    by_cases h1 : q1 v = true
    · have h2f : q2 v = false := Bool.eq_false_iff.2 fun h => hdisj v ⟨h1, h⟩
      rw [if_pos (by simp [h1]), if_pos h1, if_neg (by simp [h2f])]
      rw [List.map_cons, List.sum_cons, List.map_cons, List.sum_cons, ih]
      omega
    · have h1f : q1 v = false := Bool.eq_false_iff.2 h1
      by_cases h2 : q2 v = true
      · rw [if_pos (by simp [h2]), if_neg h1, if_pos h2]
        rw [List.map_cons, List.sum_cons, List.map_cons, List.sum_cons, ih]
        omega
      · have h2f : q2 v = false := Bool.eq_false_iff.2 h2
        rw [if_neg (by simp [h1f, h2f]), if_neg h1, if_neg h2, ih]

theorem swap_sum (vendas : List Venda) :
    ∀ ps : List Produto, (ps.map Produto.codigo).Nodup →
      (ps.map fun p => ((vendas.filter fun v =>
          v.situacao.is_confirmada && v.cod_produto == p.codigo).map (·.qtd)).sum).sum
      = ((vendas.filter fun v => v.situacao.is_confirmada &&
          ps.any fun p => p.codigo == v.cod_produto).map (·.qtd)).sum := by
  intro ps
  induction ps with
  | nil =>
    intro _
    simp
  | cons p ps' ih =>
    intro hnd
    rw [List.map_cons] at hnd
    obtain ⟨hp, hnd'⟩ := List.nodup_cons.1 hnd
    rw [List.map_cons, List.sum_cons, ih hnd']
    have hdisj : ∀ v : Venda,
        ¬((v.situacao.is_confirmada && v.cod_produto == p.codigo) = true ∧
          (v.situacao.is_confirmada &&
            ps'.any fun q => q.codigo == v.cod_produto) = true) := by
      rintro v ⟨ha, hb⟩
      simp only [Bool.and_eq_true, beq_iff_eq, List.any_eq_true] at ha hb
      obtain ⟨q, hq, hqc⟩ := hb.2
      exact hp (List.mem_map.2 ⟨q, hq, by rw [hqc, ha.2]⟩)
    rw [← sum_filter_or hdisj vendas]
    refine congrArg _ (congrArg _ (List.filter_congr ?_))
    intro v _
    rw [Bool.eq_iff_iff]
    simp only [List.any_cons, Bool.and_eq_true, Bool.or_eq_true, beq_iff_eq,
      List.any_eq_true]
    constructor
    · rintro (⟨hc, hpc⟩ | ⟨hc, hany⟩)
      · exact ⟨hc, Or.inl hpc.symm⟩
      · exact ⟨hc, Or.inr hany⟩
    · rintro ⟨hc, hpc | hany⟩
      · exact Or.inl ⟨hc, hpc.symm⟩
      · exact Or.inr ⟨hc, hany⟩

/-- With pairwise-distinct product codes, the quantities in the emitted
records sum to the total quantity of the confirmed sales that match some
product. -/
theorem sum_multigerar (produtos : List Produto) (vendas : List Venda)
    (hnd : (produtos.map Produto.codigo).Nodup) :
    ((NecessidadeTransferencia.multigerar produtos vendas).map (·.qtd_vendas)).sum
      = ((vendas.filter fun v => v.situacao.is_confirmada &&
          produtos.any fun p => p.codigo == v.cod_produto).map (·.qtd)).sum := by
  rw [multigerar_eq_spec produtos vendas hnd]
  unfold necessidadeTransferenciaSpec
  rw [List.map_map]
  have hstep : List.map ((fun r : NecessidadeTransferencia => r.qtd_vendas) ∘
      NecessidadeTransferencia.ofVendasPorProduto) (gruposPorProdutoSpec produtos vendas)
      = List.map (fun vp => (vp.vendas.map (·.qtd)).sum)
          (gruposPorProdutoSpec produtos vendas) := rfl
  rw [hstep]
  unfold gruposPorProdutoSpec
  rw [sum_spec_aux vendas produtos 0, swap_sum vendas produtos hnd]

/-! ### The Channel Aggregator -/

instance : IsTotal Venda fun a b => a.canal.value ≤ b.canal.value :=
  ⟨fun _ _ => le_total _ _⟩

instance : IsTrans Venda fun a b => a.canal.value ≤ b.canal.value :=
  ⟨fun _ _ _ => le_trans⟩

instance : IsTotal QtdVendasPorCanal fun a b => a.canal.value ≤ b.canal.value :=
  ⟨fun _ _ => le_total _ _⟩

instance : IsTrans QtdVendasPorCanal fun a b => a.canal.value ≤ b.canal.value :=
  ⟨fun _ _ _ => le_trans⟩

instance : IsAntisymm QtdVendasPorCanal fun a b => a.canal.value < b.canal.value :=
  ⟨fun _ _ h1 h2 => absurd h1 (lt_asymm h2)⟩

theorem canal_value_inj : ∀ a b : CanalVenda, a.value = b.value → a = b := by
  intro a b
  cases a <;> cases b <;> decide

/-- The four sales channels in ascending enumerated order. -/
def todosCanais : List CanalVenda :=
  [.repr_comercial, .website, .app_android, .app_ios]

theorem mem_todosCanais : ∀ c : CanalVenda, c ∈ todosCanais := by
  intro c
  cases c <;> decide

theorem pairwise_todosCanais :
    List.Pairwise (fun a b : CanalVenda => a.value < b.value) todosCanais := by decide

/-- Written from the spec's words (§4.3): one record per channel that has at
least one confirmed sale, in ascending order of the channel's enumerated
value, holding the total confirmed quantity of that channel. -/
def canalSpec (vendas : List Venda) : List QtdVendasPorCanal :=
  todosCanais.filterMap fun c =>
    let ms := vendas.filter fun v => v.situacao.is_confirmada && v.canal == c
    if ms.isEmpty then none else some ⟨c, (ms.map (·.qtd)).sum⟩

theorem mem_canalSpec {vendas : List Venda} {x : QtdVendasPorCanal} :
    x ∈ canalSpec vendas ↔
      ∃ c : CanalVenda,
        x = ⟨c, ((vendas.filter fun v =>
          v.situacao.is_confirmada && v.canal == c).map (·.qtd)).sum⟩ ∧
        vendas.filter (fun v => v.situacao.is_confirmada && v.canal == c) ≠ [] := by
  unfold canalSpec
  rw [List.mem_filterMap]
  constructor
  · rintro ⟨c, hc, hf⟩
    dsimp only at hf
    by_cases he : (vendas.filter fun v =>
        v.situacao.is_confirmada && v.canal == c).isEmpty
    · rw [if_pos he] at hf
      cases hf
    · rw [if_neg he] at hf
      exact ⟨c, (Option.some.inj hf).symm, fun hnil => he (by rw [hnil]; rfl)⟩
  · rintro ⟨c, rfl, hne⟩
    refine ⟨c, mem_todosCanais c, ?_⟩
    dsimp only
    rw [if_neg fun he => hne (List.isEmpty_iff.1 he)]

theorem pairwise_canalSpec (vendas : List Venda) :
    List.Pairwise (fun a b : QtdVendasPorCanal => a.canal.value < b.canal.value)
      (canalSpec vendas) := by
  unfold canalSpec
  rw [List.pairwise_filterMap]
  refine pairwise_todosCanais.imp ?_
  intro a b hab x hx y hy
  dsimp only at hx hy
  have hxa : x.canal = a := by
    by_cases he : (vendas.filter fun v =>
        v.situacao.is_confirmada && v.canal == a).isEmpty
    · rw [if_pos he] at hx
      cases hx
    · rw [if_neg he] at hx
      rw [← Option.some.inj hx]
  have hyb : y.canal = b := by
    by_cases he : (vendas.filter fun v =>
        v.situacao.is_confirmada && v.canal == b).isEmpty
    · rw [if_pos he] at hy
      cases hy
    · rw [if_neg he] at hy
      rw [← Option.some.inj hy]
  rw [hxa, hyb]
  exact hab

theorem canal_grupo_sum (vendas : List Venda) {c : CanalVenda} {g : List Venda}
    (hg : g = ((vendas.filter fun v => v.situacao.is_confirmada).insertionSort
        fun a b => a.canal.value ≤ b.canal.value).filter
        fun x => decide (x.canal = c)) :
    (g.map (·.qtd)).sum = ((vendas.filter fun v =>
      v.situacao.is_confirmada && v.canal == c).map (·.qtd)).sum := by
  rw [hg]
  have hperm := (List.perm_insertionSort
      (fun a b : Venda => a.canal.value ≤ b.canal.value)
      (vendas.filter fun v => v.situacao.is_confirmada)).filter
      fun x => decide (x.canal = c)
  rw [(hperm.map (·.qtd)).sum_eq, List.filter_filter]
  refine congrArg _ (congrArg _ (List.filter_congr ?_))
  intro v _
  rw [Bool.eq_iff_iff]
  simp only [Bool.and_eq_true, decide_eq_true_eq, beq_iff_eq]
  tauto

/-- The Channel Aggregator output coincides with the specification-level
description, for every input. -/
theorem multigerarCanal_eq_spec (vendas : List Venda) :
    QtdVendasPorCanal.multigerar vendas = canalSpec vendas := by
  have hs : List.Pairwise (fun a b : Venda => a.canal.value ≤ b.canal.value)
      ((vendas.filter fun v => v.situacao.is_confirmada).insertionSort
        fun a b => a.canal.value ≤ b.canal.value) := List.sorted_insertionSort _ _
  have hkc : ∀ x ∈ (vendas.filter fun v => v.situacao.is_confirmada).insertionSort
        (fun a b => a.canal.value ≤ b.canal.value),
      ∀ y ∈ (vendas.filter fun v => v.situacao.is_confirmada).insertionSort
        (fun a b => a.canal.value ≤ b.canal.value),
        (x.canal = y.canal ↔ x.canal.value = y.canal.value) := by
    intro x _ y _
    exact ⟨fun h => congrArg CanalVenda.value h, fun h => canal_value_inj _ _ h⟩
  obtain ⟨hndkeys, hflt⟩ := @pyGroupBy_sorted_spec Venda CanalVenda _
    (fun v => v.canal) (fun v => v.canal.value) _ hs hkc
  have hmem_sort : ∀ x, x ∈ ((vendas.filter fun v =>
      v.situacao.is_confirmada).insertionSort
        fun a b => a.canal.value ≤ b.canal.value) ↔
      (x ∈ vendas ∧ x.situacao.is_confirmada = true) := by
    intro x
    rw [(List.perm_insertionSort _ _).mem_iff, List.mem_filter]
  have hperm_core : ((pyGroupBy (fun v => v.canal)
      ((vendas.filter fun v => v.situacao.is_confirmada).insertionSort
        fun a b => a.canal.value ≤ b.canal.value)).map
      fun kg => QtdVendasPorCanal.mk kg.1 ((kg.2.map (·.qtd)).sum)).Perm
      (canalSpec vendas) := by
    apply List.perm_of_nodup_nodup_toFinset_eq
    · have hpw : List.Pairwise (fun kg kg' : CanalVenda × List Venda =>
          kg.1 ≠ kg'.1)
          (pyGroupBy (fun v => v.canal)
            ((vendas.filter fun v => v.situacao.is_confirmada).insertionSort
              fun a b => a.canal.value ≤ b.canal.value)) :=
        List.pairwise_map.1 hndkeys
      exact List.pairwise_map.2 (hpw.imp fun hab h =>
        hab (congrArg QtdVendasPorCanal.canal h))
    · exact (pairwise_canalSpec vendas).imp fun hab h =>
        absurd (congrArg (fun r => r.canal.value) h) (ne_of_lt hab)
    · apply Finset.ext
      intro t
      simp only [List.mem_toFinset]
      constructor
      · intro ht
        rcases List.mem_map.1 ht with ⟨kg, hkg, rfl⟩
        have hsum := canal_grupo_sum vendas (hflt kg hkg)
        obtain ⟨y, hy, hykey, -⟩ := pyGroupBy_exists_mem hkg
        obtain ⟨hyv, hyconf⟩ := (hmem_sort y).1 hy
        apply mem_canalSpec.2
        refine ⟨kg.1, by rw [hsum], ?_⟩
        refine List.ne_nil_of_mem (List.mem_filter.2 ⟨hyv, ?_⟩)
        rw [hyconf, ← hykey]
        simp
      · intro ht
        obtain ⟨c, rfl, hne⟩ := mem_canalSpec.1 ht
        obtain ⟨v, hv⟩ := List.exists_mem_of_ne_nil _ hne
        obtain ⟨hvv, hvpred⟩ := List.mem_filter.1 hv
        have hvconf : v.situacao.is_confirmada = true := by
          simp only [Bool.and_eq_true] at hvpred
          exact hvpred.1
        have hvc : v.canal = c := by
          simp only [Bool.and_eq_true, beq_iff_eq] at hvpred
          exact hvpred.2
        have hvsort : v ∈ (vendas.filter fun v =>
            v.situacao.is_confirmada).insertionSort
              fun a b => a.canal.value ≤ b.canal.value :=
          (hmem_sort v).2 ⟨hvv, hvconf⟩
        obtain ⟨kg, hkg, hkey, -⟩ := @pyGroupBy_mem_exists Venda CanalVenda _
          (fun v => v.canal) _ _ hvsort
        have hkey' : kg.1 = c := by rw [hkey, hvc]
        have hsum := canal_grupo_sum vendas (hflt kg hkg)
        apply List.mem_map.2
        refine ⟨kg, hkg, ?_⟩
        rw [hsum, hkey']
  unfold QtdVendasPorCanal.multigerar
  apply @List.eq_of_perm_of_sorted QtdVendasPorCanal
    (fun a b => a.canal.value < b.canal.value) _ _ _
  · exact (List.perm_insertionSort _ _).trans hperm_core
  · have hsorted : List.Pairwise
        (fun a b : QtdVendasPorCanal => a.canal.value ≤ b.canal.value)
        (((pyGroupBy (fun v => v.canal)
          ((vendas.filter fun v => v.situacao.is_confirmada).insertionSort
            fun a b => a.canal.value ≤ b.canal.value)).map
          fun kg => QtdVendasPorCanal.mk kg.1 ((kg.2.map (·.qtd)).sum)).insertionSort
          fun a b => a.canal.value ≤ b.canal.value) := List.sorted_insertionSort _ _
    have hnd_rec : (((pyGroupBy (fun v => v.canal)
        ((vendas.filter fun v => v.situacao.is_confirmada).insertionSort
          fun a b => a.canal.value ≤ b.canal.value)).map
        fun kg => QtdVendasPorCanal.mk kg.1 ((kg.2.map (·.qtd)).sum)).insertionSort
        fun a b => a.canal.value ≤ b.canal.value).Pairwise
        fun a b => a.canal ≠ b.canal := by
      have h1 : (((pyGroupBy (fun v => v.canal)
          ((vendas.filter fun v => v.situacao.is_confirmada).insertionSort
            fun a b => a.canal.value ≤ b.canal.value)).map
          fun kg => QtdVendasPorCanal.mk kg.1 ((kg.2.map (·.qtd)).sum)).map
          QtdVendasPorCanal.canal).Nodup := by
        rw [List.map_map]
        exact hndkeys
      have h2 := ((List.perm_insertionSort
          (fun a b : QtdVendasPorCanal => a.canal.value ≤ b.canal.value)
          ((pyGroupBy (fun v => v.canal)
            ((vendas.filter fun v => v.situacao.is_confirmada).insertionSort
              fun a b => a.canal.value ≤ b.canal.value)).map
            fun kg => QtdVendasPorCanal.mk kg.1 ((kg.2.map (·.qtd)).sum))).map
          QtdVendasPorCanal.canal).nodup_iff.2 h1
      exact List.pairwise_map.1 h2
    exact (hsorted.and hnd_rec).imp fun hab =>
      lt_of_le_of_ne hab.1 fun hv => hab.2 (canal_value_inj _ _ hv)
  · exact pairwise_canalSpec vendas

/-! ### The Divergence Detector -/

theorem countP_filterMap {γ : Type} (g : α → Option γ) (q : γ → Bool) :
    ∀ l : List α,
      (l.filterMap g).countP q = l.countP fun a => ((g a).map q).getD false := by
  intro l
  induction l with
  | nil => rfl
  | cons a as ih =>
    cases hg : g a with
    | none =>
      rw [List.filterMap_cons_none hg, List.countP_cons, ih, hg]
      simp
    | some c =>
      rw [List.filterMap_cons_some hg, List.countP_cons, List.countP_cons, ih, hg]
      simp

theorem countP_enumerate_fst {l : List α} (R : Nat × α → Bool) :
    ∀ {n i : Nat} {a : α}, (i, a) ∈ enumerate n l →
      (∀ jb, R jb = true → jb.1 = i) →
      (enumerate n l).countP R = if R (i, a) then 1 else 0 := by
  induction l with
  | nil =>
    intro n i a h _
    simp [enumerate] at h
  | cons b bs ih =>
    intro n i a h hR
    simp only [enumerate] at h ⊢
    rcases List.mem_cons.1 h with heq | htail
    · obtain ⟨hin, hab⟩ := Prod.ext_iff.1 heq
      dsimp only at hin hab
      rw [List.countP_cons]
      have htail0 : (enumerate (n + 1) bs).countP R = 0 := by
        rw [List.countP_eq_zero]
        intro jb hjb hRjb
        have h1 := hR jb hRjb
        have h2 := le_of_mem_enumerate hjb
        omega
      rw [htail0, heq, Nat.zero_add]
    · have hige : n + 1 ≤ i := le_of_mem_enumerate htail
      rw [List.countP_cons, ih htail hR]
      have hRb : ¬R (n, b) = true := fun hRb => by
        have := hR (n, b) hRb
        dsimp only at this
        omega
      rw [if_neg hRb, Nat.add_zero]

/-- Every emitted divergence for the enumerated sale at index `j` carries
line number `j + 1`. -/
theorem divergencia_num_of_eq {produtos : List Produto} {j : Nat} {v : Venda}
    {d : Divergencia}
    (hd : (if (!produtos.any fun p => p.codigo == v.cod_produto) ||
          !v.situacao.is_confirmada then
        some (⟨j + 1,
          if (!produtos.any fun p => p.codigo == v.cod_produto) then
            MSG_SEM_COD ++ " " ++ int05 v.cod_produto
          else v.situacao.msg_erro⟩ : Divergencia)
      else none) = some d) :
    d.num_linha_venda = j + 1 := by
  by_cases hc : ((!produtos.any fun p => p.codigo == v.cod_produto) ||
      !v.situacao.is_confirmada) = true
  · rw [if_pos hc] at hd
    rw [← Option.some.inj hd]
  · rw [if_neg hc] at hd
    cases hd

/-- Divergence line numbers are strictly increasing. -/
theorem pairwise_divergencia (produtos : List Produto) (vendas : List Venda) :
    List.Pairwise (fun d e : Divergencia =>
      d.num_linha_venda < e.num_linha_venda)
      (Divergencia.multigerar produtos vendas) := by
  unfold Divergencia.multigerar
  rw [List.pairwise_filterMap]
  refine (pairwise_enumerate vendas 0).imp ?_
  intro a b hab x hx y hy
  rw [Option.mem_def] at hx hy
  dsimp only at hx hy
  have hxa : x.num_linha_venda = a.1 + 1 := divergencia_num_of_eq hx
  have hyb : y.num_linha_venda = b.1 + 1 := divergencia_num_of_eq hy
  rw [hxa, hyb]
  omega

/-- The divergence list has exactly one entry for line `i + 1` when the sale
at index `i` is flagged, and none otherwise. -/
theorem countP_divergencia (produtos : List Produto) (vendas : List Venda)
    {i : Nat} {v : Venda} (hget : vendas[i]? = some v) :
    (Divergencia.multigerar produtos vendas).countP
        (fun d => d.num_linha_venda == i + 1)
      = if (!produtos.any fun p => p.codigo == v.cod_produto) ||
          !v.situacao.is_confirmada then 1 else 0 := by
  unfold Divergencia.multigerar
  rw [countP_filterMap]
  rw [countP_enumerate_fst _ (mem_enumerate_zero.2 hget) ?hR]
  case hR =>
    intro jb hjb
    by_cases hc : ((!produtos.any fun p => p.codigo == jb.2.cod_produto) ||
        !jb.2.situacao.is_confirmada) = true
    · simp [hc] at hjb
      omega
    · simp [hc] at hjb
  by_cases hc : ((!produtos.any fun p => p.codigo == v.cod_produto) ||
      !v.situacao.is_confirmada) = true
  · simp [hc]
  · simp [hc]

/-- Shape of every emitted divergence: it comes from a flagged sale, its
line number is the 1-based position of that sale, and its message is the
unmatched-product message when the code is unmatched (taking precedence),
the status error string otherwise. -/
theorem mem_divergencia_shape {produtos : List Produto} {vendas : List Venda}
    {d : Divergencia} (hd : d ∈ Divergencia.multigerar produtos vendas) :
    ∃ i v, vendas[i]? = some v ∧ d.num_linha_venda = i + 1 ∧
      ((!produtos.any fun p => p.codigo == v.cod_produto) ||
        !v.situacao.is_confirmada) = true ∧
      d.msg_err = (if (!produtos.any fun p => p.codigo == v.cod_produto) then
        MSG_SEM_COD ++ " " ++ int05 v.cod_produto
      else v.situacao.msg_erro) := by
  unfold Divergencia.multigerar at hd
  rcases List.mem_filterMap.1 hd with ⟨⟨j, v⟩, hmem, hf⟩
  dsimp only at hf
  by_cases hc : ((!produtos.any fun p => p.codigo == v.cod_produto) ||
      !v.situacao.is_confirmada) = true
  · rw [if_pos hc] at hf
    refine ⟨j, v, mem_enumerate_zero.1 hmem, ?_, hc, ?_⟩
    · rw [← Option.some.inj hf]
    · rw [← Option.some.inj hf]
  · rw [if_neg hc] at hf
    cases hf

/-- The Divergence Detector reads only the product code and the status of
each sale: sale lists agreeing on those fields produce identical output. -/
theorem divergencia_congr (produtos : List Produto) :
    ∀ (n : Nat) (v1 v2 : List Venda),
      v1.map (fun v => (v.cod_produto, v.situacao))
        = v2.map (fun v => (v.cod_produto, v.situacao)) →
      (enumerate n v1).filterMap (fun iv : Nat × Venda =>
        if (!produtos.any fun p => p.codigo == iv.2.cod_produto) ||
            !iv.2.situacao.is_confirmada then
          some (⟨iv.1 + 1,
            if (!produtos.any fun p => p.codigo == iv.2.cod_produto) then
              MSG_SEM_COD ++ " " ++ int05 iv.2.cod_produto
            else iv.2.situacao.msg_erro⟩ : Divergencia)
        else none)
      = (enumerate n v2).filterMap (fun iv : Nat × Venda =>
        if (!produtos.any fun p => p.codigo == iv.2.cod_produto) ||
            !iv.2.situacao.is_confirmada then
          some (⟨iv.1 + 1,
            if (!produtos.any fun p => p.codigo == iv.2.cod_produto) then
              MSG_SEM_COD ++ " " ++ int05 iv.2.cod_produto
            else iv.2.situacao.msg_erro⟩ : Divergencia)
        else none) := by
  intro n v1
  induction v1 generalizing n with
  | nil =>
    intro v2 h
    cases v2 with
    | nil => rfl
    | cons b bs => simp at h
  | cons a as ih =>
    intro v2 h
    cases v2 with
    | nil => simp at h
    | cons b bs =>
      simp only [List.map_cons, List.cons.injEq] at h
      obtain ⟨hab, htail⟩ := h
      obtain ⟨hcod, hsit⟩ := Prod.ext_iff.1 hab
      dsimp only at hcod hsit
      simp only [enumerate, List.filterMap_cons]
      rw [hcod, hsit, ih (n + 1) bs htail]

/-! ### Shape of the emitted transfer records -/

theorem mem_multigerar_shape {produtos : List Produto} {vendas : List Venda}
    {r : NecessidadeTransferencia}
    (hr : r ∈ NecessidadeTransferencia.multigerar produtos vendas) :
    ∃ vp, r = NecessidadeTransferencia.ofVendasPorProduto vp := by
  rcases List.mem_map.1 hr with ⟨vp, -, rfl⟩
  exact ⟨vp, rfl⟩

theorem ofVendasPorProduto_fields (vp : VendasPorProduto) :
    (NecessidadeTransferencia.ofVendasPorProduto vp).qtd_estoque_pos_vendas
      = (NecessidadeTransferencia.ofVendasPorProduto vp).qtd_produto_co
        - (NecessidadeTransferencia.ofVendasPorProduto vp).qtd_vendas ∧
    (NecessidadeTransferencia.ofVendasPorProduto vp).qtd_necessidade
      = max ((NecessidadeTransferencia.ofVendasPorProduto vp).qtd_min_produto_co
        - (NecessidadeTransferencia.ofVendasPorProduto vp).qtd_estoque_pos_vendas) 0 ∧
    (NecessidadeTransferencia.ofVendasPorProduto vp).qtd_transf_arm_co
      = (if 1 < (NecessidadeTransferencia.ofVendasPorProduto vp).qtd_necessidade ∧
          (NecessidadeTransferencia.ofVendasPorProduto vp).qtd_necessidade < 10 then 10
        else (NecessidadeTransferencia.ofVendasPorProduto vp).qtd_necessidade) := by
  unfold NecessidadeTransferencia.ofVendasPorProduto
  dsimp only
  refine ⟨rfl, ?_, ?_⟩
  · exact abs_of_nonneg (le_max_right _ 0)
  · rfl

/-- Case analysis of the batch-smoothing conditional. -/
theorem transf_cases {ne tr : Int}
    (htr : tr = if 1 < ne ∧ ne < 10 then 10 else ne) :
    (tr = 0 ↔ ne = 0) ∧ (1 < ne ∧ ne < 10 → tr = 10) ∧
      (ne ≤ 1 ∨ 10 ≤ ne → tr = ne) := by
  refine ⟨?_, ?_, ?_⟩
  · by_cases hcase : 1 < ne ∧ ne < 10
    · rw [htr, if_pos hcase]
      constructor <;> intro hx <;> omega
    · rw [htr, if_neg hcase]
  · intro h
    rw [htr, if_pos h]
  · intro h
    have hnot : ¬(1 < ne ∧ ne < 10) := by
      rintro ⟨h1, h2⟩
      rcases h with h | h <;> omega
    rw [htr, if_neg hnot]

/-! ### The input-file guard -/

theorem main_arquivos_ausentes (fs : SistemaArquivos)
    (h : fs.arquivo_produtos = none ∨ fs.arquivo_vendas = none) :
    gerar_resultado fs = none ∧
    (main fs).arquivo_transferencias = fs.arquivo_transferencias ∧
    (main fs).arquivo_divergencias = fs.arquivo_divergencias ∧
    (main fs).arquivo_totcanais = fs.arquivo_totcanais ∧
    (main fs).erros = fs.erros ++ mensagens_arquivos_faltantes fs ∧
    mensagens_arquivos_faltantes fs ≠ [] := by
  have hg : garantir_arquivos_entrada fs = false := by
    unfold garantir_arquivos_entrada
    rcases h with h | h <;> rw [h] <;> simp
  have hres : gerar_resultado fs = none := by
    unfold gerar_resultado
    rw [hg]
    rfl
  have hmain : main fs = { fs with erros := fs.erros ++ mensagens_arquivos_faltantes fs } := by
    unfold main
    rw [hres]
  have hne : mensagens_arquivos_faltantes fs ≠ [] := by
    unfold mensagens_arquivos_faltantes
    rcases h with h | h
    · rw [h]
      simp
    · rw [h]
      simp
  rw [hmain]
  exact ⟨hres, rfl, rfl, rfl, rfl, hne⟩

/-- An empty process state with both input files absent. -/
def fsVazio : SistemaArquivos := ⟨none, none, none, none, none, []⟩

/-! ### Claims -/

/-- C1 counterexample: with two products sharing code 1 and one confirmed
sale for that code, the join attaches the sale to BOTH product entries (the
raw join contains the pair with the later entry, index 1), and the output
holds a record built from the later duplicate (stock 60).  The claim says
all confirmed sales attach only to the earliest product and later
duplicates never receive any sale, which is false here. -/
theorem C1_counterexample :
    (⟨1, ⟨1, 60, 30⟩, [⟨1, 5, .confirmada_pgto_ok, .website⟩]⟩ : VendasPorProduto)
        ∈ vendas_produtos_raw [⟨1, 50, 20⟩, ⟨1, 60, 30⟩]
          [⟨1, 5, .confirmada_pgto_ok, .website⟩] ∧
      NecessidadeTransferencia.multigerar [⟨1, 50, 20⟩, ⟨1, 60, 30⟩]
          [⟨1, 5, .confirmada_pgto_ok, .website⟩]
        = [⟨1, 50, 20, 5, 45, 0, 0⟩, ⟨1, 60, 30, 5, 55, 0, 0⟩] := by decide

/-- C1 (amended): the Transfer Need Calculator joins every confirmed sale
to EVERY product entry whose code equals the sale's product code — later
duplicates included — and these pairs are exactly the content of the raw
join stage. -/
theorem C1_join_alcanca_duplicatas (produtos : List Produto) (vendas : List Venda)
    (x : VendasPorProduto) :
    x ∈ vendas_produtos_raw produtos vendas ↔
      ∃ i p v, x = ⟨i, p, [v]⟩ ∧ produtos[i]? = some p ∧ v ∈ vendas ∧
        v.cod_produto = p.codigo ∧ v.situacao.is_confirmada = true :=
  mem_vendas_produtos_raw

/-- C2 counterexample: with two products sharing code 1 and two confirmed
sales for that code, the calculator emits FOUR records — two per product
entry, each holding a single sale's quantity — so neither at most one
record per matched positional index nor totalSoldQty being the sum over all
sales joined to the entry holds. -/
theorem C2_counterexample :
    NecessidadeTransferencia.multigerar [⟨1, 50, 20⟩, ⟨1, 60, 30⟩]
        [⟨1, 5, .confirmada_pgto_ok, .website⟩,
         ⟨1, 7, .confirmada_pgto_ok, .website⟩]
      = [⟨1, 50, 20, 5, 45, 0, 0⟩, ⟨1, 50, 20, 7, 43, 0, 0⟩,
         ⟨1, 60, 30, 5, 55, 0, 0⟩, ⟨1, 60, 30, 7, 53, 0, 0⟩] := by decide

/-- C2 (amended): provided the product codes are pairwise distinct, the
calculator emits exactly one record per product entry having at least one
matching confirmed sale, in ascending order of the entry's original index,
with totalSoldQty the sum of the quantities of all matching confirmed
sales — that is, it coincides with the specification-level description. -/
theorem C2_um_registro_por_indice (produtos : List Produto) (vendas : List Venda)
    (hnd : (produtos.map Produto.codigo).Nodup) :
    NecessidadeTransferencia.multigerar produtos vendas
      = necessidadeTransferenciaSpec produtos vendas :=
  multigerar_eq_spec produtos vendas hnd

theorem C2_witness :
    ((([⟨1, 50, 20⟩, ⟨2, 60, 30⟩] : List Produto).map Produto.codigo).Nodup) ∧
      NecessidadeTransferencia.multigerar [⟨1, 50, 20⟩, ⟨2, 60, 30⟩]
          [⟨1, 40, .confirmada_pgto_ok, .website⟩]
        = necessidadeTransferenciaSpec [⟨1, 50, 20⟩, ⟨2, 60, 30⟩]
          [⟨1, 40, .confirmada_pgto_ok, .website⟩] :=
  ⟨by decide, C2_um_registro_por_indice _ _ (by decide)⟩

/-- C3 counterexample: with duplicate product codes the sum of emitted
totalSoldQty values (24) differs from the sum of quantities over confirmed
sales matching some product (12) — each sale is counted once per duplicate
entry. -/
theorem C3_counterexample :
    ((NecessidadeTransferencia.multigerar [⟨1, 50, 20⟩, ⟨1, 60, 30⟩]
        [⟨1, 5, .confirmada_pgto_ok, .website⟩,
         ⟨1, 7, .confirmada_pgto_ok, .website⟩]).map (·.qtd_vendas)).sum
      ≠ ((([⟨1, 5, .confirmada_pgto_ok, .website⟩,
          ⟨1, 7, .confirmada_pgto_ok, .website⟩] : List Venda).filter fun v =>
            v.situacao.is_confirmada &&
              ([⟨1, 50, 20⟩, ⟨1, 60, 30⟩] : List Produto).any fun p =>
                p.codigo == v.cod_produto).map (·.qtd)).sum := by decide

/-- C3 (amended): provided the product codes are pairwise distinct, the sum
of totalSoldQty over all emitted records equals the sum of quantity over
exactly the confirmed sales whose product code matches some product. -/
theorem C3_conservacao_quantidades (produtos : List Produto) (vendas : List Venda)
    (hnd : (produtos.map Produto.codigo).Nodup) :
    ((NecessidadeTransferencia.multigerar produtos vendas).map (·.qtd_vendas)).sum
      = ((vendas.filter fun v => v.situacao.is_confirmada &&
          produtos.any fun p => p.codigo == v.cod_produto).map (·.qtd)).sum :=
  sum_multigerar produtos vendas hnd

theorem C3_witness :
    ((([⟨1, 50, 20⟩, ⟨2, 60, 30⟩] : List Produto).map Produto.codigo).Nodup) ∧
      ((NecessidadeTransferencia.multigerar [⟨1, 50, 20⟩, ⟨2, 60, 30⟩]
          [⟨1, 40, .confirmada_pgto_ok, .website⟩]).map (·.qtd_vendas)).sum
        = ((([⟨1, 40, .confirmada_pgto_ok, .website⟩] : List Venda).filter fun v =>
            v.situacao.is_confirmada &&
              ([⟨1, 50, 20⟩, ⟨2, 60, 30⟩] : List Produto).any fun p =>
                p.codigo == v.cod_produto).map (·.qtd)).sum :=
  ⟨by decide, C3_conservacao_quantidades _ _ (by decide)⟩

/-- C4: every emitted record satisfies stockAfterSales = stockQtyCO −
totalSoldQty, rawNeed = max(minQtyCO − stockAfterSales, 0), and
transferQty = 10 exactly when 1 < rawNeed < 10 and rawNeed otherwise (so
rawNeed = 10 passes through unsmoothed, as in the spec's example). -/
theorem C4_formulas_registro (produtos : List Produto) (vendas : List Venda)
    (r : NecessidadeTransferencia)
    (hr : r ∈ NecessidadeTransferencia.multigerar produtos vendas) :
    r.qtd_estoque_pos_vendas = r.qtd_produto_co - r.qtd_vendas ∧
    r.qtd_necessidade = max (r.qtd_min_produto_co - r.qtd_estoque_pos_vendas) 0 ∧
    r.qtd_transf_arm_co = (if 1 < r.qtd_necessidade ∧ r.qtd_necessidade < 10
      then 10 else r.qtd_necessidade) := by
  obtain ⟨vp, rfl⟩ := mem_multigerar_shape hr
  exact ofVendasPorProduto_fields vp

theorem C4_witness :
    ((⟨1, 50, 20, 40, 10, 10, 10⟩ : NecessidadeTransferencia)
        ∈ NecessidadeTransferencia.multigerar [⟨1, 50, 20⟩]
          [⟨1, 40, .confirmada_pgto_ok, .website⟩]) ∧
      ((⟨1, 50, 20, 40, 10, 10, 10⟩ :
          NecessidadeTransferencia).qtd_estoque_pos_vendas
        = (⟨1, 50, 20, 40, 10, 10, 10⟩ :
            NecessidadeTransferencia).qtd_produto_co
          - (⟨1, 50, 20, 40, 10, 10, 10⟩ :
              NecessidadeTransferencia).qtd_vendas ∧
      (⟨1, 50, 20, 40, 10, 10, 10⟩ : NecessidadeTransferencia).qtd_necessidade
        = max ((⟨1, 50, 20, 40, 10, 10, 10⟩ :
            NecessidadeTransferencia).qtd_min_produto_co
          - (⟨1, 50, 20, 40, 10, 10, 10⟩ :
              NecessidadeTransferencia).qtd_estoque_pos_vendas) 0 ∧
      (⟨1, 50, 20, 40, 10, 10, 10⟩ : NecessidadeTransferencia).qtd_transf_arm_co
        = (if 1 < (⟨1, 50, 20, 40, 10, 10, 10⟩ :
              NecessidadeTransferencia).qtd_necessidade ∧
            (⟨1, 50, 20, 40, 10, 10, 10⟩ :
              NecessidadeTransferencia).qtd_necessidade < 10
          then 10
          else (⟨1, 50, 20, 40, 10, 10, 10⟩ :
            NecessidadeTransferencia).qtd_necessidade)) :=
  ⟨by decide, C4_formulas_registro [⟨1, 50, 20⟩]
    [⟨1, 40, .confirmada_pgto_ok, .website⟩] _ (by decide)⟩

/-- C5 counterexample: with stock 50 and minimum 11, one confirmed sale of
40 leaves rawNeed = 1 and the code emits transferQty = 1, not 10: the
smoothing rule triggers only for 1 < rawNeed < 10, so the claim's
`transferQty == 10 whenever 0 < rawNeed < 10` fails at rawNeed = 1. -/
theorem C5_counterexample :
    ¬(∀ r ∈ NecessidadeTransferencia.multigerar [⟨1, 50, 11⟩]
        [⟨1, 40, .confirmada_pgto_ok, .website⟩],
      0 < r.qtd_necessidade ∧ r.qtd_necessidade < 10 →
        r.qtd_transf_arm_co = 10) := by decide

/-- C5 (amended): for every emitted record, transferQty = 0 iff rawNeed =
0; transferQty = 10 whenever 1 < rawNeed < 10; and transferQty = rawNeed
whenever rawNeed ≤ 1 or rawNeed ≥ 10. -/
theorem C5_batch_smoothing (produtos : List Produto) (vendas : List Venda)
    (r : NecessidadeTransferencia)
    (hr : r ∈ NecessidadeTransferencia.multigerar produtos vendas) :
    (r.qtd_transf_arm_co = 0 ↔ r.qtd_necessidade = 0) ∧
    (1 < r.qtd_necessidade ∧ r.qtd_necessidade < 10 →
      r.qtd_transf_arm_co = 10) ∧
    (r.qtd_necessidade ≤ 1 ∨ 10 ≤ r.qtd_necessidade →
      r.qtd_transf_arm_co = r.qtd_necessidade) := by
  obtain ⟨vp, rfl⟩ := mem_multigerar_shape hr
  exact transf_cases (ofVendasPorProduto_fields vp).2.2

theorem C5_witness :
    ((⟨1, 50, 20, 33, 17, 3, 10⟩ : NecessidadeTransferencia)
        ∈ NecessidadeTransferencia.multigerar [⟨1, 50, 20⟩]
          [⟨1, 33, .confirmada_pgto_ok, .website⟩]) ∧
      (((⟨1, 50, 20, 33, 17, 3, 10⟩ :
          NecessidadeTransferencia).qtd_transf_arm_co = 0 ↔
        (⟨1, 50, 20, 33, 17, 3, 10⟩ :
          NecessidadeTransferencia).qtd_necessidade = 0) ∧
      (1 < (⟨1, 50, 20, 33, 17, 3, 10⟩ :
          NecessidadeTransferencia).qtd_necessidade ∧
        (⟨1, 50, 20, 33, 17, 3, 10⟩ :
          NecessidadeTransferencia).qtd_necessidade < 10 →
        (⟨1, 50, 20, 33, 17, 3, 10⟩ :
          NecessidadeTransferencia).qtd_transf_arm_co = 10) ∧
      ((⟨1, 50, 20, 33, 17, 3, 10⟩ :
          NecessidadeTransferencia).qtd_necessidade ≤ 1 ∨
        10 ≤ (⟨1, 50, 20, 33, 17, 3, 10⟩ :
          NecessidadeTransferencia).qtd_necessidade →
        (⟨1, 50, 20, 33, 17, 3, 10⟩ :
          NecessidadeTransferencia).qtd_transf_arm_co
          = (⟨1, 50, 20, 33, 17, 3, 10⟩ :
            NecessidadeTransferencia).qtd_necessidade)) :=
  ⟨by decide, C5_batch_smoothing [⟨1, 50, 20⟩]
    [⟨1, 33, .confirmada_pgto_ok, .website⟩] _ (by decide)⟩

/-- C6: divergence line numbers are strictly increasing; the sale at index
`i` (1-based line `i + 1`) produces exactly one divergence when its code
matches no product or its status is not confirmed, and none otherwise (in
particular, a confirmed matched sale never produces one); and
ConfirmedPending counts as confirmed. -/
theorem C6_divergencias_caracterizadas (produtos : List Produto)
    (vendas : List Venda) (i : Nat) (v : Venda) (hget : vendas[i]? = some v) :
    List.Pairwise (fun d e : Divergencia =>
      d.num_linha_venda < e.num_linha_venda)
      (Divergencia.multigerar produtos vendas) ∧
    (Divergencia.multigerar produtos vendas).countP
        (fun d => d.num_linha_venda == i + 1)
      = (if (!produtos.any fun p => p.codigo == v.cod_produto) ||
          !v.situacao.is_confirmada then 1 else 0) ∧
    SituacaoVenda.is_confirmada .confirmada_pgto_pendente = true :=
  ⟨pairwise_divergencia produtos vendas,
    countP_divergencia produtos vendas hget, rfl⟩

theorem C6_witness :
    (([⟨2, 5, .cancelada, .website⟩] : List Venda)[0]?
        = some ⟨2, 5, .cancelada, .website⟩) ∧
      (List.Pairwise (fun d e : Divergencia =>
        d.num_linha_venda < e.num_linha_venda)
        (Divergencia.multigerar [⟨1, 50, 20⟩] [⟨2, 5, .cancelada, .website⟩]) ∧
      (Divergencia.multigerar [⟨1, 50, 20⟩]
          [⟨2, 5, .cancelada, .website⟩]).countP
          (fun d => d.num_linha_venda == 0 + 1)
        = (if (!([⟨1, 50, 20⟩] : List Produto).any fun p =>
              p.codigo == (⟨2, 5, .cancelada, .website⟩ : Venda).cod_produto) ||
            !(⟨2, 5, .cancelada, .website⟩ : Venda).situacao.is_confirmada
          then 1 else 0) ∧
      SituacaoVenda.is_confirmada .confirmada_pgto_pendente = true) :=
  ⟨by decide, C6_divergencias_caracterizadas [⟨1, 50, 20⟩]
    [⟨2, 5, .cancelada, .website⟩] 0 _ (by decide)⟩

/-- C7: every emitted divergence stems from a flagged sale; when the sale's
code matches no product its message is the fixed MSG_SEM_COD followed by
the code zero-padded to five digits — even when the status is also
non-confirmed — and the status error string is used only when the code
does match some product. -/
theorem C7_precedencia_mensagem (produtos : List Produto) (vendas : List Venda)
    (d : Divergencia) (hd : d ∈ Divergencia.multigerar produtos vendas) :
    ∃ i v, vendas[i]? = some v ∧ d.num_linha_venda = i + 1 ∧
      ((∀ p ∈ produtos, p.codigo ≠ v.cod_produto) →
        d.msg_err = MSG_SEM_COD ++ " " ++ int05 v.cod_produto) ∧
      ((∃ p ∈ produtos, p.codigo = v.cod_produto) →
        d.msg_err = v.situacao.msg_erro) := by
  obtain ⟨i, v, hget, hnum, -, hmsg⟩ := mem_divergencia_shape hd
  refine ⟨i, v, hget, hnum, ?_, ?_⟩
  · intro hall
    have hcond : (!produtos.any fun p => p.codigo == v.cod_produto) = true := by
      simp only [Bool.not_eq_true', List.any_eq_false, beq_iff_eq]
      exact hall
    rw [hmsg, if_pos hcond]
  · rintro ⟨p, hp, hpc⟩
    have hcond : (produtos.any fun q => q.codigo == v.cod_produto) = true := by
      simp only [List.any_eq_true, beq_iff_eq]
      exact ⟨p, hp, hpc⟩
    rw [hmsg, if_neg (by rw [hcond]; simp)]

theorem C7_witness :
    ((⟨1, "Código de Produto não encontrado 00007"⟩ : Divergencia)
        ∈ Divergencia.multigerar [] [⟨7, 1, .cancelada, .website⟩]) ∧
      ∃ i v, ([⟨7, 1, .cancelada, .website⟩] : List Venda)[i]? = some v ∧
        (⟨1, "Código de Produto não encontrado 00007"⟩ :
          Divergencia).num_linha_venda = i + 1 ∧
        ((∀ p ∈ ([] : List Produto), p.codigo ≠ v.cod_produto) →
          (⟨1, "Código de Produto não encontrado 00007"⟩ :
            Divergencia).msg_err = MSG_SEM_COD ++ " " ++ int05 v.cod_produto) ∧
        ((∃ p ∈ ([] : List Produto), p.codigo = v.cod_produto) →
          (⟨1, "Código de Produto não encontrado 00007"⟩ :
            Divergencia).msg_err = v.situacao.msg_erro) :=
  ⟨by decide, C7_precedencia_mensagem [] [⟨7, 1, .cancelada, .website⟩] _ (by decide)⟩

/-- C8: the Channel Aggregator emits one record per channel with at least
one confirmed sale (none for channels without), carrying the sum of the
confirmed quantities of that channel, ordered ascending by the channel's
enumerated value — it coincides with the specification-level description
for every input. -/
theorem C8_canais_espec (vendas : List Venda) :
    QtdVendasPorCanal.multigerar vendas = canalSpec vendas :=
  multigerarCanal_eq_spec vendas

/-- C9: if either input file is absent, the guard fails, the run reports
the problem on stderr and aborts before any computation, and none of the
three output files is touched. -/
theorem C9_guarda_arquivos (fs : SistemaArquivos)
    (h : fs.arquivo_produtos = none ∨ fs.arquivo_vendas = none) :
    gerar_resultado fs = none ∧
    (main fs).arquivo_transferencias = fs.arquivo_transferencias ∧
    (main fs).arquivo_divergencias = fs.arquivo_divergencias ∧
    (main fs).arquivo_totcanais = fs.arquivo_totcanais ∧
    (main fs).erros = fs.erros ++ mensagens_arquivos_faltantes fs ∧
    mensagens_arquivos_faltantes fs ≠ [] :=
  main_arquivos_ausentes fs h

theorem C9_witness :
    (fsVazio.arquivo_produtos = none ∨ fsVazio.arquivo_vendas = none) ∧
      (gerar_resultado fsVazio = none ∧
      (main fsVazio).arquivo_transferencias = fsVazio.arquivo_transferencias ∧
      (main fsVazio).arquivo_divergencias = fsVazio.arquivo_divergencias ∧
      (main fsVazio).arquivo_totcanais = fsVazio.arquivo_totcanais ∧
      (main fsVazio).erros = fsVazio.erros ++ mensagens_arquivos_faltantes fsVazio ∧
      mensagens_arquivos_faltantes fsVazio ≠ []) :=
  ⟨Or.inl rfl, C9_guarda_arquivos fsVazio (Or.inl rfl)⟩

/-- C10: the Divergence Detector reads only each sale's product code and
status: two sale sequences agreeing pointwise on those fields (but possibly
differing in quantity and channel) produce identical divergence output for
the same product sequence. -/
theorem C10_divergencias_independentes (produtos : List Produto)
    (vendas1 vendas2 : List Venda)
    (h : vendas1.map (fun v => (v.cod_produto, v.situacao))
      = vendas2.map fun v => (v.cod_produto, v.situacao)) :
    Divergencia.multigerar produtos vendas1
      = Divergencia.multigerar produtos vendas2 :=
  divergencia_congr produtos 0 vendas1 vendas2 h

theorem C10_witness :
    (([⟨1, 5, .confirmada_pgto_ok, .website⟩] : List Venda).map
        (fun v => (v.cod_produto, v.situacao))
      = ([⟨1, 99, .confirmada_pgto_ok, .app_ios⟩] : List Venda).map
        fun v => (v.cod_produto, v.situacao)) ∧
      Divergencia.multigerar [⟨2, 50, 20⟩] [⟨1, 5, .confirmada_pgto_ok, .website⟩]
        = Divergencia.multigerar [⟨2, 50, 20⟩]
          [⟨1, 99, .confirmada_pgto_ok, .app_ios⟩] :=
  ⟨by decide, C10_divergencias_independentes [⟨2, 50, 20⟩] _ _ (by decide)⟩

end EstqOp
